import Mathlib

/-!
Verification development for the `mcp-vs-function-calling` repository.

The development shallowly embeds the state-synchronization core of the
repository: the value-conversion helpers of
`src/mcp-server/src/data-manager/data.ts`, the connection lifecycle of
`src/mcp-server/src/hass-ws-client/client.ts`, the per-area dashboard
configuration of `src/mcp-server/src/data-manager/config.ts`, and the
`DataManager` synchronizer of
`src/func-calling/src/data-manager/data-manager.ts`.

Modelling conventions:
 - JavaScript numbers are modelled as exact rationals (`ℚ`); `Math.round`
   is `jsRound` (round half toward positive infinity, JS semantics).
 - JavaScript objects with optional fields are modelled with `Option`
   fields (`none` = the field is absent/undefined).
 - `Record<string, T>` objects are modelled as association lists whose
   key order is the insertion order, matching `Object.keys` enumeration
   for non-numeric keys.
 - Mutation of `this.data` together with thrown exceptions is modelled by
   state-passing functions returning `List Area × Option String`:
   the post-state (as mutated so far) together with the error message of
   the thrown exception, if any.
-/

/-- JS `Math.round`: rounds half toward positive infinity. -/
def jsRound (q : ℚ) : ℤ := ⌊q + 1/2⌋

/-- Truncation toward zero, the result of JS `parseInt` applied to the
decimal string rendering of an (ordinarily sized) finite number. -/
def ratTrunc (q : ℚ) : ℤ := if 0 ≤ q then ⌊q⌋ else ⌈q⌉

/-- Numeric value of a list of decimal digit characters. -/
def digitsVal (ds : List Char) : ℕ := ds.foldl (fun acc c => acc * 10 + (c.toNat - 48)) 0

/-- JS `Number.parseInt(s, 10)`: optional sign, then leading decimal
digits; `none` models `NaN`. (Leading whitespace is not modelled.) -/
def jsParseInt (s : String) : Option ℤ :=
  let p : ℚ × List Char :=
    match s.toList with
    | '-' :: r => (-1, r)
    | '+' :: r => (1, r)
    | cs => (1, cs)
  let ds := p.2.takeWhile Char.isDigit
  if ds.isEmpty then none else some (jsParseIntSign p.1 (digitsVal ds))
where
  jsParseIntSign (sign : ℚ) (v : ℕ) : ℤ := if sign < 0 then -(v : ℤ) else (v : ℤ)

/-- JS `Number.parseFloat`: optional sign, decimal digits with an optional
fractional part; `none` models `NaN`. (Exponent notation and leading
whitespace are not modelled; the repository's sensor readings are plain
decimals.) -/
def jsParseFloat (s : String) : Option ℚ :=
  let p : ℚ × List Char :=
    match s.toList with
    | '-' :: r => (-1, r)
    | '+' :: r => (1, r)
    | cs => (1, cs)
  let ip := p.2.takeWhile Char.isDigit
  match p.2.dropWhile Char.isDigit with
  | '.' :: r2 =>
    let fp := r2.takeWhile Char.isDigit
    if ip.isEmpty ∧ fp.isEmpty then none
    else some (p.1 * ((digitsVal ip : ℚ) + (digitsVal fp : ℚ) / (10 : ℚ) ^ fp.length))
  | _ => if ip.isEmpty then none else some (p.1 * (digitsVal ip : ℚ))

/-- A raw JS attribute value (`unknown` in the source): a number, a string,
an array of numbers, or anything else (absent/other is `Option.none` at
the use sites). -/
inductive RawVal where
  | num (q : ℚ)
  | str (s : String)
  | arr (elems : List ℚ)
  deriving DecidableEq

/-! ## `src/mcp-server/src/data-manager/data.ts` -/

/-- `TemperatureUnitOfMeasurement`: the source strings `"°C"` / `"°F"`. -/
inductive TempUnit where
  | celsius
  | fahrenheit
  deriving DecidableEq

/-- Unit of measurement of a sensor: `"%"`, `"ppm"` or a temperature unit. -/
inductive SensorUnit where
  | percent
  | ppm
  | temp (u : TempUnit)
  deriving DecidableEq

/-- A numeric sensor state or the `"unavailable"` sentinel. -/
inductive NumOrUnavail where
  | num (q : ℚ)
  | unavailable
  deriving DecidableEq

/-- `Light["state"]`: the tri-state of a light. -/
inductive LightState where
  | on
  | off
  | unavailable
  deriving DecidableEq

/-- `getLightState`: raw `"on"`/`"off"` pass through, anything else
(including a missing state) is `"unavailable"`. -/
def getLightState (s : Option String) : LightState :=
  if s = some "on" then .on else if s = some "off" then .off else .unavailable

/-- `getBrightnessPercentage`: raw 0–255 brightness (number or numeric
string) scaled to a 0–100 integer via `Math.round((b / 255) * 100)`;
non-numeric input gives `null`. -/
def getBrightnessPercentage (brightness : Option RawVal) : Option ℤ :=
  match brightness with
  | some (.str s) =>
    match jsParseInt s with
    | none => none
    | some v => some (jsRound (((v : ℚ) / 255) * 100))
  | some (.num q) => some (jsRound ((q / 255) * 100))
  | _ => none

/-- `getBrightnessValue`: percentage scaled back to 0–255 via
`Math.round((p / 100) * 255)`; `null` gives `0`. -/
def getBrightnessValue (brightnessPercentage : Option ℚ) : ℤ :=
  match brightnessPercentage with
  | none => 0
  | some p => jsRound ((p / 100) * 255)

/-- `getRBGColor` (source spelling): the raw attribute passes through only
when it is an array, otherwise `null`. -/
def getRBGColor (rgbColor : Option RawVal) : Option (List ℚ) :=
  match rgbColor with
  | some (.arr l) => some l
  | _ => none

/-- `getNumericSensorState`: the hub delivers the state as a string;
a parsable numeric string passes through, anything else is
`"unavailable"`. (The source also has a `typeof === "number"` branch that
the string-typed `s` field never takes.) -/
def getNumericSensorState (state : Option String) : NumOrUnavail :=
  match state with
  | some str =>
    match jsParseFloat str with
    | some v => .num v
    | none => .unavailable
  | none => .unavailable

/-- `getTemperatureUnitOfMeasurement`: recognizes exactly the strings
`"°C"` and `"°F"`; anything else gives `null`. -/
def getTemperatureUnitOfMeasurement (unitOfMeasurement : Option String) : Option TempUnit :=
  if unitOfMeasurement = some "°C" then some .celsius
  else if unitOfMeasurement = some "°F" then some .fahrenheit
  else none

/-- `calcTemperatureValue`: skip when the value is the `unavailable`
sentinel or the units agree; otherwise convert with `value * 1.8 + 32`
(to Fahrenheit) or `(value - 32) / 1.8` (to Celsius), rounded. -/
def calcTemperatureValue (value : NumOrUnavail) (unitOfMeasurement targetUnitOfMeasurement : TempUnit) :
    NumOrUnavail :=
  match value with
  | .unavailable => .unavailable
  | .num v =>
    if unitOfMeasurement = targetUnitOfMeasurement then .num v
    else if targetUnitOfMeasurement = .fahrenheit then .num (jsRound (v * 1.8 + 32))
    else .num (jsRound ((v - 32) / 1.8))

/-! ## Domain model (`data.ts` types) -/

/-- `Light` of the domain model. -/
structure Light where
  areaId : String
  areaName : String
  deviceId : Option String
  deviceName : String
  entityId : String
  state : LightState
  brightnessPercentage : Option ℤ
  rgbColor : Option (List ℚ)
  deriving DecidableEq

/-- One sensor record; the source's `HumiditySensor`, `TemperatureSensor`
and `CarbonDioxideSensor` types share this shape and differ only in the
`unitOfMeasurement` type. -/
structure Sensor where
  areaId : String
  areaName : String
  deviceId : Option String
  deviceName : String
  entityId : String
  state : NumOrUnavail
  unitOfMeasurement : SensorUnit
  deriving DecidableEq

/-- `Area` of the domain model. -/
structure Area where
  id : String
  name : String
  floorId : Option String
  lights : List Light
  humiditySensor : Option Sensor
  temperatureSensor : Option Sensor
  carbonDioxideSensor : Option Sensor
  deriving DecidableEq

/-! ## Wire types (`client.ts`) -/

/-- `HassArea` registry entry. -/
structure HassArea where
  area_id : String
  floor_id : Option String
  name : String
  deriving DecidableEq

/-- `HassDevice` registry entry (registry fields the code never reads,
such as `manufacturer` and `model`, are omitted). -/
structure HassDevice where
  area_id : Option String
  id : String
  name : String
  deriving DecidableEq

/-- `HassEntity` registry entry. -/
structure HassEntity where
  device_id : Option String
  entity_id : String
  deriving DecidableEq

/-- The attribute object of an entity state; only the attributes the code
reads are modelled, each absent when not delivered. -/
structure HassAttrs where
  brightness : Option RawVal
  rgb_color : Option RawVal
  unit_of_measurement : Option String
  deriving DecidableEq

/-- `HassEntityState`: `s` is the state string, `a` the attribute object.
Both are `Option` because incremental patches deliver only changed
fields. -/
structure HassEntityState where
  s : Option String
  a : Option HassAttrs
  deriving DecidableEq

/-- Association-list lookup, i.e. JS `map[key]` returning `undefined`
when absent. -/
def lookupAssoc (l : List (String × HassEntityState)) (k : String) : Option HassEntityState :=
  match l.find? (fun p => p.1 == k) with
  | some p => some p.2
  | none => none

/-! ## `src/mcp-server/src/data-manager/config.ts` -/

/-- `DashboardConfig`: the static per-area sensor configuration. -/
structure DashboardConfig where
  areaId : String
  temperatureUnitOfMeasurement : TempUnit
  temperatureSensorEntityId : Option String
  humiditySensorEntityId : Option String
  carbonDioxideSensorEntityId : Option String
  deriving DecidableEq

/-- `dashboardConfigs`: the concrete configuration table of the repo. -/
def dashboardConfigs : List DashboardConfig :=
  [ { areaId := "living_room", temperatureUnitOfMeasurement := .celsius,
      carbonDioxideSensorEntityId := some "sensor.aranet4_23eff_carbon_dioxide",
      humiditySensorEntityId := some "sensor.aranet4_23eff_humidity",
      temperatureSensorEntityId := some "sensor.aranet4_23eff_temperature" },
    { areaId := "kitchen", temperatureUnitOfMeasurement := .celsius,
      temperatureSensorEntityId := none, humiditySensorEntityId := none,
      carbonDioxideSensorEntityId := none },
    { areaId := "bedroom", temperatureUnitOfMeasurement := .celsius,
      temperatureSensorEntityId := none, humiditySensorEntityId := none,
      carbonDioxideSensorEntityId := none },
    { areaId := "office", temperatureUnitOfMeasurement := .celsius,
      carbonDioxideSensorEntityId := some "sensor.aranet4_23f66_carbon_dioxide",
      humiditySensorEntityId := some "sensor.aranet4_23f66_humidity",
      temperatureSensorEntityId := some "sensor.aranet4_23f66_temperature" } ]

/-! ## `src/mcp-server/src/hass-ws-client/client.ts` — connection lifecycle

Only the state of the `socket` and `refetchInterval` fields matters for
the lifecycle claims. `socketSet` models `this.socket !== null` (the
field holds a WebSocket object); `refetchArmed` models a live periodic
refresh timer. -/

/-- Lifecycle-relevant state of a `HomeAssistantWebSocketClient`. -/
structure ClientState where
  socketSet : Bool
  refetchArmed : Bool
  runningId : ℕ
  deriving DecidableEq

/-- A freshly constructed client: no socket, no timer, `runningId = 1`. -/
def initClient : ClientState := { socketSet := false, refetchArmed := false, runningId := 1 }

/-- `connect()`: throws when `this.socket` is set; otherwise resets the id
counter, stores a fresh socket and arms the periodic refresh timer. -/
def connectClient (s : ClientState) : Except String ClientState :=
  if s.socketSet then .error "Socket unexpectedly already connected"
  else .ok { socketSet := true, refetchArmed := true, runningId := 1 }

/-- `close()`: when a socket is stored, clears the refresh interval and
closes the transport. Note that the `socket` field itself is never reset
to `null`. -/
def closeClient (s : ClientState) : ClientState :=
  if s.socketSet then { s with refetchArmed := false } else s

/-! ## `src/func-calling/src/data-manager/data-manager.ts` -/

/-- `EntityTypes.light`. -/
def EntityTypes.light : String := "light"

/-- Whether an entity id is in the light domain, i.e.
`entityId.startsWith("light.")` (stated on the character lists so that it
evaluates by kernel reduction). -/
def isLightId (eid : String) : Bool :=
  (EntityTypes.light ++ ".").toList.isPrefixOf eid.toList

/-- Render an `Option String` the way JS template literals render
`string | null` values. -/
def optStr (o : Option String) : String :=
  match o with
  | some s => s
  | none => "null"

/-- `getStateEntityDeviceForEntityId`: looks up the state, the registry
entity and its device for an entity id; a missing entity or device
throws. -/
def getStateEntityDeviceForEntityId (eid : String) (devices : List HassDevice)
    (entities : List HassEntity) (entityStates : List (String × HassEntityState)) :
    Except String (Option HassEntityState × HassEntity × HassDevice) :=
  match entities.find? (fun e => e.entity_id == eid) with
  | none => .error ("Entity not found: " ++ eid)
  | some ent =>
    match devices.find? (fun d => ent.device_id == some d.id) with
    | none => .error ("Device not found: " ++ optStr ent.device_id ++ " for entity " ++ eid)
    | some dev => .ok (lookupAssoc entityStates eid, ent, dev)

/-- Replace the first element satisfying `p` by its `f`-image; models the
in-place mutation of the object returned by `Array.prototype.find`. -/
def updateFirst (p : α → Bool) (f : α → α) : List α → List α
  | [] => []
  | x :: xs => if p x then f x :: xs else x :: updateFirst p f xs

/-- Replace the first light with the same `entityId`, or push at the end;
models the `findIndex`/assign-or-push upsert of `updateLights`. -/
def upsertLight : List Light → Light → List Light
  | [], lg => [lg]
  | l :: ls, lg => if l.entityId == lg.entityId then lg :: ls else l :: upsertLight ls lg

/-- The per-area merge of `updateAreas`: registry fields win, all other
fields survive from the stale area when one with the same id exists. -/
def mergeArea (staleAreas : List Area) (area : HassArea) : Area :=
  match staleAreas.find? (fun a => a.id == area.area_id) with
  | some staleArea =>
    { staleArea with id := area.area_id, name := area.name, floorId := area.floor_id }
  | none =>
    { id := area.area_id, name := area.name, floorId := area.floor_id,
      lights := [], humiditySensor := none, temperatureSensor := none,
      carbonDioxideSensor := none }

/-- `updateAreas`: rebuild the area list from the registry snapshot,
merging each new area over the stale area with the same id. -/
def updateAreas (staleAreas : List Area) (areas : List HassArea) : List Area :=
  areas.map (mergeArea staleAreas)

/-- The `Light` built by `updateLights` for one entity. -/
def buildLight (area : Area) (dev : HassDevice) (eid : String) (st : HassEntityState) : Light :=
  { areaId := area.id, areaName := area.name, deviceId := some dev.id,
    deviceName := dev.name, entityId := eid, state := getLightState st.s,
    brightnessPercentage := getBrightnessPercentage (st.a.bind HassAttrs.brightness),
    rgbColor := getRBGColor (st.a.bind HassAttrs.rgb_color) }

/-- One iteration of the `updateLights` loop for entity id `eid`:
non-light ids are skipped; a missing entity, device or area throws,
leaving the areas as mutated so far. -/
def lightStep (devices : List HassDevice) (entities : List HassEntity)
    (entityStates : List (String × HassEntityState)) (areas : List Area) (eid : String) :
    List Area × Option String :=
  if isLightId eid = false then (areas, none)
  else
    match getStateEntityDeviceForEntityId eid devices entities entityStates with
    | .error e => (areas, some e)
    | .ok (stOpt, _ent, dev) =>
      match areas.find? (fun a => dev.area_id == some a.id) with
      | none => (areas, some ("Area not found: " ++ optStr dev.area_id ++ " for light " ++ eid))
      | some area =>
        match stOpt with
        | none => (areas, none)
        | some st =>
          (updateFirst (fun a => dev.area_id == some a.id)
            (fun a => { a with lights := upsertLight a.lights (buildLight area dev eid st) })
            areas, none)

/-- The `updateLights` loop over the keys of the state map. -/
def updateLightsGo (devices : List HassDevice) (entities : List HassEntity)
    (entityStates : List (String × HassEntityState)) :
    List String → List Area → List Area × Option String
  | [], areas => (areas, none)
  | eid :: rest, areas =>
    match lightStep devices entities entityStates areas eid with
    | (areas', some e) => (areas', some e)
    | (areas', none) => updateLightsGo devices entities entityStates rest areas'

/-- `updateLights`: derive every light-domain entity of the state map into
its area. -/
def updateLights (devices : List HassDevice) (entities : List HassEntity)
    (entityStates : List (String × HassEntityState)) (areas : List Area) :
    List Area × Option String :=
  updateLightsGo devices entities entityStates (entityStates.map Prod.fst) areas

/-- The humidity sensor record built by `updateSensors`. -/
def mkHumiditySensor (area : Area) (dev : HassDevice) (eid : String) (st : HassEntityState) :
    Sensor :=
  { areaId := area.id, areaName := area.name, deviceId := some dev.id,
    deviceName := dev.name, entityId := eid,
    state := getNumericSensorState st.s, unitOfMeasurement := .percent }

/-- The temperature sensor record built by `updateSensors`: the hub's unit
is preferred when recognized, otherwise the configured unit; the value is
converted to the configured display unit. -/
def mkTemperatureSensor (dash : DashboardConfig) (area : Area) (dev : HassDevice)
    (eid : String) (st : HassEntityState) : Sensor :=
  let unitOfMeasurement :=
    (getTemperatureUnitOfMeasurement (st.a.bind HassAttrs.unit_of_measurement)).getD
      dash.temperatureUnitOfMeasurement
  { areaId := area.id, areaName := area.name, deviceId := some dev.id,
    deviceName := dev.name, entityId := eid,
    state := calcTemperatureValue (getNumericSensorState st.s) unitOfMeasurement
      dash.temperatureUnitOfMeasurement,
    unitOfMeasurement := .temp unitOfMeasurement }

/-- The carbon dioxide sensor record built by `updateSensors`. -/
def mkCarbonDioxideSensor (area : Area) (dev : HassDevice) (eid : String)
    (st : HassEntityState) : Sensor :=
  { areaId := area.id, areaName := area.name, deviceId := some dev.id,
    deviceName := dev.name, entityId := eid,
    state := getNumericSensorState st.s, unitOfMeasurement := .ppm }

/-- One `updateSensors` iteration for one entity id and one dashboard
config: a missing dashboard area throws; the matching configured sensor
(humidity, then temperature, then carbon dioxide) is rebuilt on the first
area with the dashboard's id. -/
def dashStep (devices : List HassDevice) (entities : List HassEntity)
    (entityStates : List (String × HassEntityState)) (eid : String)
    (areas : List Area) (dash : DashboardConfig) : List Area × Option String :=
  match areas.find? (fun a => a.id == dash.areaId) with
  | none => (areas, some ("Dashboard area not found: " ++ dash.areaId))
  | some area =>
    if dash.humiditySensorEntityId == some eid then
      match getStateEntityDeviceForEntityId eid devices entities entityStates with
      | .error e => (areas, some e)
      | .ok (stOpt, _ent, dev) =>
        match stOpt with
        | none => (areas, none)
        | some st =>
          (updateFirst (fun a => a.id == dash.areaId)
            (fun a => { a with humiditySensor := some (mkHumiditySensor area dev eid st) })
            areas, none)
    else if dash.temperatureSensorEntityId == some eid then
      match getStateEntityDeviceForEntityId eid devices entities entityStates with
      | .error e => (areas, some e)
      | .ok (stOpt, _ent, dev) =>
        match stOpt with
        | none => (areas, none)
        | some st =>
          (updateFirst (fun a => a.id == dash.areaId)
            (fun a => { a with temperatureSensor := some (mkTemperatureSensor dash area dev eid st) })
            areas, none)
    else if dash.carbonDioxideSensorEntityId == some eid then
      match getStateEntityDeviceForEntityId eid devices entities entityStates with
      | .error e => (areas, some e)
      | .ok (stOpt, _ent, dev) =>
        match stOpt with
        | none => (areas, none)
        | some st =>
          (updateFirst (fun a => a.id == dash.areaId)
            (fun a => { a with carbonDioxideSensor := some (mkCarbonDioxideSensor area dev eid st) })
            areas, none)
    else (areas, none)

/-- The inner `updateSensors` loop over the dashboard configs. -/
def dashFold (devices : List HassDevice) (entities : List HassEntity)
    (entityStates : List (String × HassEntityState)) (eid : String) :
    List DashboardConfig → List Area → List Area × Option String
  | [], areas => (areas, none)
  | dash :: rest, areas =>
    match dashStep devices entities entityStates eid areas dash with
    | (areas', some e) => (areas', some e)
    | (areas', none) => dashFold devices entities entityStates eid rest areas'

/-- The outer `updateSensors` loop over the keys of the state map. -/
def updateSensorsGo (cfg : List DashboardConfig) (devices : List HassDevice)
    (entities : List HassEntity) (entityStates : List (String × HassEntityState)) :
    List String → List Area → List Area × Option String
  | [], areas => (areas, none)
  | eid :: rest, areas =>
    match dashFold devices entities entityStates eid cfg areas with
    | (areas', some e) => (areas', some e)
    | (areas', none) => updateSensorsGo cfg devices entities entityStates rest areas'

/-- `updateSensors`: rebuild every configured sensor from the state map. -/
def updateSensors (cfg : List DashboardConfig) (devices : List HassDevice)
    (entities : List HassEntity) (entityStates : List (String × HassEntityState))
    (areas : List Area) : List Area × Option String :=
  updateSensorsGo cfg devices entities entityStates (entityStates.map Prod.fst) areas

/-- The body of `syncData` once all four buffers are present:
`updateAreas`, then `updateLights`, then `updateSensors`; the first thrown
error aborts the remainder, leaving the areas as mutated so far. -/
def rebuildRun (cfg : List DashboardConfig) (areas0 : List Area)
    (ha : List HassArea) (hd : List HassDevice) (he : List HassEntity)
    (hs : List (String × HassEntityState)) : List Area × Option String :=
  let a1 := updateAreas areas0 ha
  match updateLights hd he hs a1 with
  | (a2, some e) => (a2, some e)
  | (a2, none) => updateSensors cfg hd he hs a2

/-- The mutable state of a `DataManager`: the domain model (`data.areas`;
the constant-empty `floors`/`users` lists are omitted) and the four
staging buffers of `incomingData`. -/
structure DMState where
  areas : List Area
  inAreas : Option (List HassArea)
  inDevices : Option (List HassDevice)
  inEntities : Option (List HassEntity)
  inStates : Option (List (String × HassEntityState))
  deriving DecidableEq

/-- A freshly constructed `DataManager`. -/
def dmInit : DMState :=
  { areas := [], inAreas := none, inDevices := none, inEntities := none, inStates := none }

/-- Outcome of one `syncData` call: the guard did not pass, or the rebuild
body ran to completion, or the rebuild body threw. -/
inductive SyncFlag where
  | noFire
  | fireOk
  | fireErr (e : String)
  deriving DecidableEq

/-- `syncData`: when all four buffers are non-null, run the rebuild; on
success clear all four buffers; a thrown rebuild error propagates,
leaving the buffers untouched and the model as mutated so far. -/
def syncData (cfg : List DashboardConfig) (s : DMState) : DMState × SyncFlag :=
  match s.inAreas, s.inDevices, s.inEntities, s.inStates with
  | some ha, some hd, some he, some hs =>
    match rebuildRun cfg s.areas ha hd he hs with
    | (a', none) =>
      ({ areas := a', inAreas := none, inDevices := none, inEntities := none,
         inStates := none }, .fireOk)
    | (a', some e) => ({ s with areas := a' }, .fireErr e)
  | _, _, _, _ => (s, .noFire)

/-- One of the four registry events the `start()` handlers subscribe to. -/
inductive RegistryEvent where
  | areas (payload : List HassArea)
  | devices (payload : List HassDevice)
  | entities (payload : List HassEntity)
  | entityStates (payload : List (String × HassEntityState))
  deriving DecidableEq

/-- The four registry event kinds. -/
inductive RKind where
  | areas
  | devices
  | entities
  | entityStates
  deriving DecidableEq

/-- Kind of a registry event. -/
def RegistryEvent.kind : RegistryEvent → RKind
  | .areas _ => .areas
  | .devices _ => .devices
  | .entities _ => .entities
  | .entityStates _ => .entityStates

/-- Store a registry event into its staging buffer. -/
def setBuf (s : DMState) : RegistryEvent → DMState
  | .areas x => { s with inAreas := some x }
  | .devices x => { s with inDevices := some x }
  | .entities x => { s with inEntities := some x }
  | .entityStates x => { s with inStates := some x }

/-- The `start()` handler of one registry event: store the payload into
its buffer, then attempt `syncData`. -/
def applyRegistryEvent (cfg : List DashboardConfig) (s : DMState) (ev : RegistryEvent) :
    DMState × SyncFlag :=
  syncData cfg (setBuf s ev)

/-- Deliver a list of registry events in order. -/
def runEvents (cfg : List DashboardConfig) : DMState → List RegistryEvent → DMState
  | s, [] => s
  | s, ev :: rest => runEvents cfg (applyRegistryEvent cfg s ev).1 rest

/-- How many of the delivered registry events made the `syncData` guard
pass (i.e. how many times the rebuild body started). -/
def fireCount (cfg : List DashboardConfig) : DMState → List RegistryEvent → ℕ
  | _, [] => 0
  | s, ev :: rest =>
    match applyRegistryEvent cfg s ev with
    | (s', .noFire) => fireCount cfg s' rest
    | (s', .fireOk) => 1 + fireCount cfg s' rest
    | (s', .fireErr _) => 1 + fireCount cfg s' rest

/-- The field-wise shallow merge `{ ...currentState, ...change }` of the
buffered snapshot entry with an incremental patch. -/
def mergeEntityState (cur : Option HassEntityState) (chg : HassEntityState) : HassEntityState :=
  { s := match chg.s with
         | some v => some v
         | none => match cur with | some c => c.s | none => none,
    a := match chg.a with
         | some v => some v
         | none => match cur with | some c => c.a | none => none }

/-- Insert-or-update of an association list at a key: an existing key
keeps its position (JS object key order), a new key is appended. -/
def assocUpsert : List (String × HassEntityState) → String → HassEntityState →
    List (String × HassEntityState)
  | [], k, v => [(k, v)]
  | (k', v') :: rest, k, v =>
    if k' == k then (k, v) :: rest else (k', v') :: assocUpsert rest k v

/-- Merge a list of incremental patches into the buffered full-state
snapshot, patch fields winning. -/
def applyChangesToBuffer (buf changes : List (String × HassEntityState)) :
    List (String × HassEntityState) :=
  changes.foldl (fun b p => assocUpsert b p.1 (mergeEntityState (lookupAssoc b p.1) p.2)) buf

/-- `updateLightState` applied to one entity: patch the state (and, only
when the patch carries an attribute object, the brightness and color) of
the matched light. -/
def patchLight (st : HassEntityState) (l : Light) : Light :=
  match st.a with
  | some attrs =>
    { l with state := getLightState st.s,
             brightnessPercentage := getBrightnessPercentage attrs.brightness,
             rgbColor := getRBGColor attrs.rgb_color }
  | none => { l with state := getLightState st.s }

/-- `updateLightState`: find the first area containing a light with this
entity id, patch that light in place and return the area id; when no
light matches, return `null` and leave the model untouched. -/
def updateLightState (eid : String) (st : HassEntityState) :
    List Area → Option String × List Area
  | [] => (none, [])
  | a :: rest =>
    if a.lights.any (fun l => l.entityId == eid) then
      (some a.id,
        { a with lights := updateFirst (fun l => l.entityId == eid) (patchLight st) a.lights }
          :: rest)
    else
      let r := updateLightState eid st rest
      (r.1, a :: r.2)

/-- `updateCarbonDioxideSensor`: a missing area throws; a missing sensor
is only logged; otherwise the sensor's state is overwritten. -/
def updateCarbonDioxideSensor (areaId : String) (st : HassEntityState) (areas : List Area) :
    List Area × Option String :=
  match areas.find? (fun a => a.id == areaId) with
  | none => (areas, some ("Area not found: " ++ areaId))
  | some area =>
    match area.carbonDioxideSensor with
    | none => (areas, none)
    | some sensor =>
      let sensor' : Sensor :=
        { sensor with state := getNumericSensorState st.s, unitOfMeasurement := .ppm }
      (updateFirst (fun a => a.id == areaId)
        (fun a => { a with carbonDioxideSensor := some sensor' }) areas, none)

/-- `updateHumiditySensor`: as for carbon dioxide, with unit `"%"`. -/
def updateHumiditySensor (areaId : String) (st : HassEntityState) (areas : List Area) :
    List Area × Option String :=
  match areas.find? (fun a => a.id == areaId) with
  | none => (areas, some ("Area not found: " ++ areaId))
  | some area =>
    match area.humiditySensor with
    | none => (areas, none)
    | some sensor =>
      let sensor' : Sensor :=
        { sensor with state := getNumericSensorState st.s, unitOfMeasurement := .percent }
      (updateFirst (fun a => a.id == areaId)
        (fun a => { a with humiditySensor := some sensor' }) areas, none)

/-- `updateTemperatureSensor`: refinds the dashboard (throws when absent),
then patches the temperature sensor with a freshly converted value. -/
def updateTemperatureSensor (cfg : List DashboardConfig) (areaId : String)
    (st : HassEntityState) (areas : List Area) : List Area × Option String :=
  match cfg.find? (fun d => d.areaId == areaId) with
  | none => (areas, some ("Dashboard not found for areaId: " ++ areaId))
  | some dash =>
    match areas.find? (fun a => a.id == areaId) with
    | none => (areas, some ("Area not found: " ++ areaId))
    | some area =>
      match area.temperatureSensor with
      | none => (areas, none)
      | some sensor =>
        let unitOfMeasurement :=
          (getTemperatureUnitOfMeasurement (st.a.bind HassAttrs.unit_of_measurement)).getD
            dash.temperatureUnitOfMeasurement
        let sensor' : Sensor :=
          { sensor with
            state := calcTemperatureValue (getNumericSensorState st.s) unitOfMeasurement
              dash.temperatureUnitOfMeasurement,
            unitOfMeasurement := .temp unitOfMeasurement }
        (updateFirst (fun a => a.id == areaId)
          (fun a => { a with temperatureSensor := some sensor' }) areas, none)

/-- The per-dashboard body of the live (no buffered snapshot) branch of
the `entity_state_change` handler for a non-light entity id. -/
def dashPatchFold (cfg : List DashboardConfig) (fullCfg : List DashboardConfig)
    (eid : String) (chg : HassEntityState) (areas : List Area) : List Area × Option String :=
  match cfg with
  | [] => (areas, none)
  | dash :: rest =>
    if dash.carbonDioxideSensorEntityId == some eid then
      match updateCarbonDioxideSensor dash.areaId chg areas with
      | (areas', some e) => (areas', some e)
      | (areas', none) => dashPatchFold rest fullCfg eid chg areas'
    else if dash.humiditySensorEntityId == some eid then
      match updateHumiditySensor dash.areaId chg areas with
      | (areas', some e) => (areas', some e)
      | (areas', none) => dashPatchFold rest fullCfg eid chg areas'
    else if dash.temperatureSensorEntityId == some eid then
      match updateTemperatureSensor fullCfg dash.areaId chg areas with
      | (areas', some e) => (areas', some e)
      | (areas', none) => dashPatchFold rest fullCfg eid chg areas'
    else dashPatchFold rest fullCfg eid chg areas

/-- The live branch of the `entity_state_change` handler for one patched
entity: light ids go through `updateLightState`, other ids through the
dashboard sensor patchers. -/
def liveChangeStep (cfg : List DashboardConfig) (eid : String) (chg : HassEntityState)
    (areas : List Area) : List Area × Option String :=
  if isLightId eid then ((updateLightState eid chg areas).2, none)
  else dashPatchFold cfg cfg eid chg areas

/-- The live branch over all patched entities. -/
def liveChangeFold (cfg : List DashboardConfig) :
    List (String × HassEntityState) → List Area → List Area × Option String
  | [], areas => (areas, none)
  | (eid, chg) :: rest, areas =>
    match liveChangeStep cfg eid chg areas with
    | (areas', some e) => (areas', some e)
    | (areas', none) => liveChangeFold cfg rest areas'

/-- The `entity_state_change` handler: while an `entityStates` buffer is
held, merge the patches into the buffered snapshot; otherwise apply them
to the live model. -/
def handleStateChange (cfg : List DashboardConfig) (s : DMState)
    (changes : List (String × HassEntityState)) : DMState × Option String :=
  match s.inStates with
  | some buf => ({ s with inStates := some (applyChangesToBuffer buf changes) }, none)
  | none =>
    match liveChangeFold cfg changes s.areas with
    | (areas', err) => ({ s with areas := areas' }, err)

/-- `getLights`: the lights of the first area with this id; an unknown
area throws. -/
def getLights (areas : List Area) (areaId : String) : Except String (List Light) :=
  match areas.find? (fun a => a.id == areaId) with
  | none => .error ("Area not found: " ++ areaId)
  | some area => .ok area.lights

/-- A formatted sensor reading: the `"unavailable"` sentinel string or the
string `"<value> <unit>"` (kept structured here). -/
inductive SensorReading where
  | unavailable
  | reading (value : ℚ) (unitOfMeasurement : SensorUnit)
  deriving DecidableEq

/-- `getCarbonDioxideInsideReading`: `null` when no sensor was ever
configured, the sentinel when unavailable, otherwise the formatted
reading. -/
def getCarbonDioxideInsideReading (areas : List Area) (areaId : String) :
    Except String (Option SensorReading) :=
  match areas.find? (fun a => a.id == areaId) with
  | none => .error ("Area not found: " ++ areaId)
  | some area =>
    match area.carbonDioxideSensor with
    | none => .ok none
    | some sensor =>
      match sensor.state with
      | .unavailable => .ok (some .unavailable)
      | .num v => .ok (some (.reading v sensor.unitOfMeasurement))

/-- `getCarbonDioxideDangerLevel`: `"unknown"` for a null or unavailable
reading; otherwise `parseInt` of the leading token of the formatted
reading (the truncated value) is compared against the fixed 1000 ppm
threshold. -/
def getCarbonDioxideDangerLevel (areas : List Area) (areaId : String) :
    Except String String :=
  match getCarbonDioxideInsideReading areas areaId with
  | .error e => .error e
  | .ok none => .ok "unknown"
  | .ok (some .unavailable) => .ok "unknown"
  | .ok (some (.reading v _)) =>
    if ratTrunc v > 1000 then .ok "danger" else .ok "safe"

/-- A protocol command issued through the websocket client. -/
inductive Command where
  | turnOn (entityId : String) (brightness : Option ℤ)
  | turnOff (entityId : String)
  deriving DecidableEq

/-- `turnOffAllLights`: issue `turn_off` exactly for the area's lights
whose cached state is `"on"`. -/
def turnOffAllLights (areas : List Area) (areaId : String) : Except String (List Command) :=
  match getLights areas areaId with
  | .error e => .error e
  | .ok lights =>
    .ok (lights.filterMap (fun l =>
      if l.state = .on then some (.turnOff l.entityId) else none))

/-- `turnOnAllLights`: issue `turn_on` exactly for the area's lights whose
cached state is `"off"`. -/
def turnOnAllLights (areas : List Area) (areaId : String) : Except String (List Command) :=
  match getLights areas areaId with
  | .error e => .error e
  | .ok lights =>
    .ok (lights.filterMap (fun l =>
      if l.state = .off then some (.turnOn l.entityId none) else none))

instance [DecidableEq ε] [DecidableEq α] : DecidableEq (Except ε α) := fun x y =>
  match x, y with
  | .ok a, .ok b => if h : a = b then .isTrue (by rw [h]) else .isFalse (by simp [h])
  | .ok _, .error _ => .isFalse (by simp)
  | .error _, .ok _ => .isFalse (by simp)
  | .error e, .error f => if h : e = f then .isTrue (by rw [h]) else .isFalse (by simp [h])

/-! ## Concrete fixtures used by witnesses and counterexamples -/

/-- Registry areas covering the four configured dashboard areas. -/
def cfgAreas : List HassArea :=
  [ { area_id := "living_room", floor_id := none, name := "Living Room" },
    { area_id := "kitchen", floor_id := none, name := "Kitchen" },
    { area_id := "bedroom", floor_id := none, name := "Bedroom" },
    { area_id := "office", floor_id := none, name := "Office" } ]

/-- A device in the office area. -/
def deskDevice : HassDevice := { area_id := some "office", id := "d1", name := "Desk Lamp" }

/-- The light entity hosted by `deskDevice`. -/
def deskEntity : HassEntity := { device_id := some "d1", entity_id := "light.desk" }

/-- A full-state snapshot entry with state `"off"`. -/
def stOff : HassEntityState :=
  { s := some "off",
    a := some { brightness := none, rgb_color := none, unit_of_measurement := none } }

/-- An incremental patch to state `"on"` with no attribute object. -/
def patchOn : HassEntityState := { s := some "on", a := none }

/-- The rational 1000.5, written as a literal. -/
def halfQ : ℚ := ⟨2001, 2, by decide, by decide⟩

/-! ## C3 -/

/-- C3: after `connect()` and then an explicit `close()`, a second
`connect()` on the same instance throws "Socket unexpectedly already
connected" — `close()` never resets the `socket` field — although
`close()` itself is idempotent. This contradicts the claim (and the
spec's stated recovery path), witnessing the code bug. -/
theorem connect_after_close_throws :
    (do
      let s1 ← connectClient initClient
      connectClient (closeClient s1) : Except String ClientState)
      = .error "Socket unexpectedly already connected"
    ∧ ∀ s : ClientState, closeClient (closeClient s) = closeClient s := by
  refine ⟨rfl, fun s => ?_⟩
  by_cases h : s.socketSet = true <;> simp [closeClient, h]

/-! ## C7 -/

/-- `jsRound q` is at most `q + 1/2`. -/
theorem jsRound_le (q : ℚ) : (jsRound q : ℚ) ≤ q + 1/2 := Int.floor_le _

/-- `q + 1/2` is below `jsRound q + 1`. -/
theorem lt_jsRound_add_one (q : ℚ) : q + 1/2 < (jsRound q : ℚ) + 1 := Int.lt_floor_add_one _

/-- Characterization of `jsRound` by its bracketing inequalities. -/
theorem jsRound_eq_of (q : ℚ) (z : ℤ) (h1 : (z : ℚ) ≤ q + 1/2) (h2 : q + 1/2 < (z : ℚ) + 1) :
    jsRound q = z := by
  rw [jsRound]
  rw [Int.floor_eq_iff]
  constructor
  · exact_mod_cast h1
  · exact_mod_cast h2

/-- C7: for every integer percentage `0 ≤ p ≤ 100`, the composition
`getBrightnessPercentage (getBrightnessValue p)` is non-null and within 1
of `p`. -/
theorem brightness_roundtrip (p : ℤ) (_h0 : 0 ≤ p) (_h1 : p ≤ 100) :
    ∃ r : ℤ,
      getBrightnessPercentage (some (.num ((getBrightnessValue (some (p : ℚ)) : ℤ) : ℚ)))
        = some r ∧ |r - p| ≤ 1 := by
  refine ⟨jsRound ((((getBrightnessValue (some (p : ℚ)) : ℤ) : ℚ)) / 255 * 100), rfl, ?_⟩
  have hval : getBrightnessValue (some (p : ℚ)) = jsRound ((p : ℚ) / 100 * 255) := rfl
  have hle := jsRound_le ((p : ℚ) / 100 * 255)
  have hgt := lt_jsRound_add_one ((p : ℚ) / 100 * 255)
  rw [hval]
  have hkey : jsRound ((((jsRound ((p : ℚ) / 100 * 255) : ℤ) : ℚ)) / 255 * 100) = p := by
    apply jsRound_eq_of
    · linarith
    · linarith
  rw [hkey]
  simp

/-- C7 witness at `p = 30`. -/
theorem brightness_roundtrip_witness :
    ∃ r : ℤ,
      getBrightnessPercentage (some (.num ((getBrightnessValue (some ((30 : ℤ) : ℚ)) : ℤ) : ℚ)))
        = some r ∧ |r - (30 : ℤ)| ≤ 1 :=
  brightness_roundtrip 30 (by norm_num) (by norm_num)

/-! ## C8 -/

/-- C8: `calcTemperatureValue` is the identity when the units agree, the
`unavailable` sentinel is never converted, and the Celsius → Fahrenheit →
Celsius round trip returns the original integer value within ±1. -/
theorem temperature_conversion_props :
    (∀ (v : ℚ) (u : TempUnit), calcTemperatureValue (.num v) u u = .num v)
    ∧ (∀ u t : TempUnit, calcTemperatureValue .unavailable u t = .unavailable)
    ∧ (∀ c : ℤ, ∃ c' : ℤ,
        calcTemperatureValue
          (calcTemperatureValue (.num (c : ℚ)) .celsius .fahrenheit)
          .fahrenheit .celsius = .num ((c' : ℤ) : ℚ)
        ∧ |c' - c| ≤ 1) := by
  refine ⟨fun v u => by simp [calcTemperatureValue], fun u t => rfl, fun c => ?_⟩
  refine ⟨jsRound ((((jsRound ((c : ℚ) * 1.8 + 32) : ℤ) : ℚ) - 32) / 1.8), ?_, ?_⟩
  · simp [calcTemperatureValue]
  · have hle := jsRound_le ((c : ℚ) * 1.8 + 32)
    have hgt := lt_jsRound_add_one ((c : ℚ) * 1.8 + 32)
    have hdiv : ((((jsRound ((c : ℚ) * 1.8 + 32) : ℤ) : ℚ) - 32) / 1.8) * 1.8
        = ((jsRound ((c : ℚ) * 1.8 + 32) : ℤ) : ℚ) - 32 := by
      field_simp
    have hkey : jsRound ((((jsRound ((c : ℚ) * 1.8 + 32) : ℤ) : ℚ) - 32) / 1.8) = c := by
      apply jsRound_eq_of
      · nlinarith [hdiv, hle, hgt]
      · nlinarith [hdiv, hle, hgt]
    rw [hkey]
    simp

/-! ## C9 -/

/-- A CO₂ sensor fixture with a non-integer reading of 1000.5 ppm. -/
def co2SensorHalf : Sensor :=
  { areaId := "office", areaName := "Office", deviceId := some "d2",
    deviceName := "Aranet", entityId := "sensor.co2", state := .num halfQ,
    unitOfMeasurement := .ppm }

/-- An office area whose CO₂ sensor reads 1000.5 ppm. -/
def co2AreaHalf : Area :=
  { id := "office", name := "Office", floorId := none, lights := [],
    humiditySensor := none, temperatureSensor := none,
    carbonDioxideSensor := some co2SensorHalf }

/-- C9 counterexample: a CO₂ reading of 1000.5 ppm is strictly above
1000, yet `getCarbonDioxideDangerLevel` classifies it as `"safe"`
(`parseInt` truncates the formatted reading), refuting the claim's
"danger for any value strictly above 1000". -/
theorem co2_half_ppm_safe :
    (1000 : ℚ) < halfQ
    ∧ getCarbonDioxideDangerLevel [co2AreaHalf] "office" = .ok "safe" := by
  exact ⟨by decide, rfl⟩

/-- C9 (amended): for a known area, the danger level is `"unknown"` when
no CO₂ sensor is configured or its state is unavailable; for a numeric
reading it is `"danger"` exactly when the truncated reading exceeds
1000 ppm and `"safe"` otherwise (so 1000 is safe, 1001 is danger, and a
non-integer reading in (1000, 1001) is safe). -/
theorem co2_danger_level (areas : List Area) (aid : String) (area : Area)
    (hfind : areas.find? (fun a => a.id == aid) = some area) :
    (area.carbonDioxideSensor = none →
      getCarbonDioxideDangerLevel areas aid = .ok "unknown")
    ∧ (∀ s, area.carbonDioxideSensor = some s →
        (s.state = .unavailable →
          getCarbonDioxideDangerLevel areas aid = .ok "unknown")
        ∧ (∀ q : ℚ, s.state = .num q →
            (ratTrunc q ≤ 1000 →
              getCarbonDioxideDangerLevel areas aid = .ok "safe")
            ∧ (1000 < ratTrunc q →
              getCarbonDioxideDangerLevel areas aid = .ok "danger"))) := by
  refine ⟨fun hnone => ?_, fun s hs => ⟨fun hu => ?_, fun q hq => ⟨fun hle => ?_, fun hlt => ?_⟩⟩⟩
  · simp [getCarbonDioxideDangerLevel, getCarbonDioxideInsideReading, hfind, hnone]
  · simp [getCarbonDioxideDangerLevel, getCarbonDioxideInsideReading, hfind, hs, hu]
  · simp [getCarbonDioxideDangerLevel, getCarbonDioxideInsideReading, hfind, hs, hq,
      show ¬ (1000 < ratTrunc q) from not_lt.mpr hle]
  · simp [getCarbonDioxideDangerLevel, getCarbonDioxideInsideReading, hfind, hs, hq, hlt]

/-- An office area whose CO₂ sensor reads exactly 1001 ppm. -/
def co2Area1001 : Area :=
  { id := "office", name := "Office", floorId := none, lights := [],
    humiditySensor := none, temperatureSensor := none,
    carbonDioxideSensor := some { co2SensorHalf with state := .num (1001 : ℚ) } }

/-- C9 witness: at a 1001 ppm reading the amended theorem gives
`"danger"`. -/
theorem co2_danger_level_witness :
    getCarbonDioxideDangerLevel [co2Area1001] "office" = .ok "danger" :=
  (((co2_danger_level [co2Area1001] "office" co2Area1001 (by decide)).2
      { co2SensorHalf with state := .num (1001 : ℚ) } rfl).2 1001 rfl).2 (by decide)

/-! ## C4 -/

/-- A light cached `"unavailable"`. -/
def unavailLight : Light :=
  { areaId := "office", areaName := "Office", deviceId := some "d1",
    deviceName := "Desk Lamp", entityId := "light.desk", state := .unavailable,
    brightnessPercentage := none, rgbColor := none }

/-- An office area whose sole light is cached `"unavailable"`. -/
def unavailArea : Area :=
  { id := "office", name := "Office", floorId := none, lights := [unavailLight],
    humiditySensor := none, temperatureSensor := none, carbonDioxideSensor := none }

/-- C4 counterexample: the sole light's cached tri-state differs from the
`"on"` target, yet `turnOnAllLights` issues no command at all — an
unavailable light is *not* attempted (the code compares with strict
equality against `"off"`), refuting the claim. -/
theorem turn_on_skips_unavailable :
    unavailLight.state ≠ .on
    ∧ turnOnAllLights [unavailArea] "office" = .ok [] := by
  exact ⟨by decide, rfl⟩

/-- Length of the commands produced for the lights in state `"off"`. -/
theorem turnOn_filterMap_length (lights : List Light) :
    (lights.filterMap (fun l =>
      if l.state = LightState.off then some (Command.turnOn l.entityId none) else none)).length
      = (lights.filter (fun l => l.state == LightState.off)).length := by
  induction lights with
  | nil => rfl
  | cons x xs ih => by_cases h : x.state = LightState.off <;> simp [h, ih]

/-- Length of the commands produced for the lights in state `"on"`. -/
theorem turnOff_filterMap_length (lights : List Light) :
    (lights.filterMap (fun l =>
      if l.state = LightState.on then some (Command.turnOff l.entityId) else none)).length
      = (lights.filter (fun l => l.state == LightState.on)).length := by
  induction lights with
  | nil => rfl
  | cons x xs ih => by_cases h : x.state = LightState.on <;> simp [h, ih]

/-- C4 (amended): for a known area, `turnOnAllLights` issues a `turn_on`
exactly for each light cached `"off"` (lights cached `"on"` or
`"unavailable"` get none), and `turnOffAllLights` issues a `turn_off`
exactly for each light cached `"on"`. -/
theorem area_light_commands (areas : List Area) (aid : String) (area : Area)
    (hfind : areas.find? (fun a => a.id == aid) = some area) :
    ∃ onCmds offCmds : List Command,
      turnOnAllLights areas aid = .ok onCmds
      ∧ turnOffAllLights areas aid = .ok offCmds
      ∧ (∀ l ∈ area.lights, l.state = .off → Command.turnOn l.entityId none ∈ onCmds)
      ∧ (∀ c ∈ onCmds, ∃ l ∈ area.lights, l.state = .off ∧ c = Command.turnOn l.entityId none)
      ∧ onCmds.length = (area.lights.filter (fun l => l.state == LightState.off)).length
      ∧ (∀ l ∈ area.lights, l.state = .on → Command.turnOff l.entityId ∈ offCmds)
      ∧ (∀ c ∈ offCmds, ∃ l ∈ area.lights, l.state = .on ∧ c = Command.turnOff l.entityId)
      ∧ offCmds.length = (area.lights.filter (fun l => l.state == LightState.on)).length := by
  refine ⟨area.lights.filterMap (fun l =>
      if l.state = LightState.off then some (Command.turnOn l.entityId none) else none),
    area.lights.filterMap (fun l =>
      if l.state = LightState.on then some (Command.turnOff l.entityId) else none),
    ?_, ?_, ?_, ?_, ?_, ?_, ?_, ?_⟩
  · rw [turnOnAllLights, getLights, hfind]
  · rw [turnOffAllLights, getLights, hfind]
  · intro l hl hoff
    exact List.mem_filterMap.mpr ⟨l, hl, by simp [hoff]⟩
  · intro c hc
    obtain ⟨l, hl, hval⟩ := List.mem_filterMap.mp hc
    by_cases h : l.state = LightState.off
    · rw [if_pos h] at hval
      exact ⟨l, hl, h, (Option.some.injEq _ _).mp hval |>.symm⟩
    · rw [if_neg h] at hval
      cases hval
  · exact turnOn_filterMap_length area.lights
  · intro l hl hon
    exact List.mem_filterMap.mpr ⟨l, hl, by simp [hon]⟩
  · intro c hc
    obtain ⟨l, hl, hval⟩ := List.mem_filterMap.mp hc
    by_cases h : l.state = LightState.on
    · rw [if_pos h] at hval
      exact ⟨l, hl, h, (Option.some.injEq _ _).mp hval |>.symm⟩
    · rw [if_neg h] at hval
      cases hval
  · exact turnOff_filterMap_length area.lights

/-- An area with one light in each tri-state. -/
def mixArea : Area :=
  { id := "office", name := "Office", floorId := none,
    lights :=
      [ { unavailLight with entityId := "light.a", state := .on },
        { unavailLight with entityId := "light.b", state := .off },
        { unavailLight with entityId := "light.c", state := .unavailable } ],
    humiditySensor := none, temperatureSensor := none, carbonDioxideSensor := none }

/-- C4 witness at the mixed three-light area. -/
theorem area_light_commands_witness :
    ∃ onCmds offCmds : List Command,
      turnOnAllLights [mixArea] "office" = .ok onCmds
      ∧ turnOffAllLights [mixArea] "office" = .ok offCmds
      ∧ (∀ l ∈ mixArea.lights, l.state = .off → Command.turnOn l.entityId none ∈ onCmds)
      ∧ (∀ c ∈ onCmds, ∃ l ∈ mixArea.lights, l.state = .off ∧ c = Command.turnOn l.entityId none)
      ∧ onCmds.length = (mixArea.lights.filter (fun l => l.state == LightState.off)).length
      ∧ (∀ l ∈ mixArea.lights, l.state = .on → Command.turnOff l.entityId ∈ offCmds)
      ∧ (∀ c ∈ offCmds, ∃ l ∈ mixArea.lights, l.state = .on ∧ c = Command.turnOff l.entityId)
      ∧ offCmds.length = (mixArea.lights.filter (fun l => l.state == LightState.on)).length :=
  area_light_commands [mixArea] "office" mixArea (by decide)

/-! ## C10 -/

/-- Relation between an old light and its post-`updateLightState` value
for a patch with no attribute object: unchanged, or (only for a light
with the patched entity id) changed in the `state` field alone. -/
def lightFrameOk (eid : String) (st : HassEntityState) (old new : Light) : Prop :=
  new = old ∨ (old.entityId = eid ∧ new = { old with state := getLightState st.s })

/-- Relation between an old area and its post-`updateLightState` value:
all non-`lights` fields unchanged and the lights pointwise related by
`lightFrameOk`. -/
def areaFrameOk (eid : String) (st : HassEntityState) (old new : Area) : Prop :=
  new.id = old.id ∧ new.name = old.name ∧ new.floorId = old.floorId
  ∧ new.humiditySensor = old.humiditySensor
  ∧ new.temperatureSensor = old.temperatureSensor
  ∧ new.carbonDioxideSensor = old.carbonDioxideSensor
  ∧ List.Forall₂ (lightFrameOk eid st) old.lights new.lights

/-- `lightFrameOk` is reflexive. -/
theorem lightFrameOk_refl (eid : String) (st : HassEntityState) (l : Light) :
    lightFrameOk eid st l l := Or.inl rfl

/-- `areaFrameOk` is reflexive. -/
theorem areaFrameOk_refl (eid : String) (st : HassEntityState) (a : Area) :
    areaFrameOk eid st a a := by
  refine ⟨rfl, rfl, rfl, rfl, rfl, rfl, ?_⟩
  exact List.forall₂_same.mpr (fun l _ => lightFrameOk_refl eid st l)

/-- Patching one light list relates it pointwise to the original. -/
theorem updateFirst_patch_forall₂ (eid : String) (st : HassEntityState) (hA : st.a = none)
    (lights : List Light) :
    List.Forall₂ (lightFrameOk eid st) lights
      (updateFirst (fun l => l.entityId == eid) (patchLight st) lights) := by
  induction lights with
  | nil => exact List.Forall₂.nil
  | cons l ls ih =>
    rw [updateFirst]
    by_cases h : l.entityId = eid
    · rw [if_pos (by simp [h])]
      refine List.Forall₂.cons (Or.inr ⟨h, ?_⟩) (List.forall₂_same.mpr (fun x _ => lightFrameOk_refl eid st x))
      rw [patchLight, hA]
    · rw [if_neg (by simp [h])]
      exact List.Forall₂.cons (lightFrameOk_refl eid st l) ih

/-- C10: `updateLightState` with an attribute-less patch overwrites only
the matched light's `state` field (brightness and color untouched),
leaves every other light and every non-`lights` field of every area
unchanged, and when no light anywhere matches the entity id it returns
`null` and leaves the model identical. -/
theorem update_light_state_frame (eid : String) (st : HassEntityState) (areas : List Area) :
    ((∀ a ∈ areas, ∀ l ∈ a.lights, l.entityId ≠ eid) →
        updateLightState eid st areas = (none, areas))
    ∧ (st.a = none →
        List.Forall₂ (areaFrameOk eid st) areas (updateLightState eid st areas).2) := by
  constructor
  · intro hnomatch
    induction areas with
    | nil => rfl
    | cons a rest ih =>
      rw [updateLightState]
      have hany : a.lights.any (fun l => l.entityId == eid) = false := by
        simp only [List.any_eq_false]
        intro l hl
        simp [hnomatch a (by simp) l hl]
      rw [if_neg (by simp [hany])]
      have hrest := ih (fun a' ha' l hl => hnomatch a' (by simp [ha']) l hl)
      rw [hrest]
  · intro hA
    induction areas with
    | nil => exact List.Forall₂.nil
    | cons a rest ih =>
      rw [updateLightState]
      by_cases h : a.lights.any (fun l => l.entityId == eid)
      · rw [if_pos h]
        refine List.Forall₂.cons ?_ (List.forall₂_same.mpr (fun x _ => areaFrameOk_refl eid st x))
        exact ⟨rfl, rfl, rfl, rfl, rfl, rfl, updateFirst_patch_forall₂ eid st hA a.lights⟩
      · rw [if_neg h]
        exact List.Forall₂.cons (areaFrameOk_refl eid st a) ih

/-- C10 witness: a matching patch without attributes on the mixed area,
and a non-matching entity id leaving the model untouched. -/
theorem update_light_state_frame_witness :
    (patchOn.a = none
      ∧ List.Forall₂ (areaFrameOk "light.b" patchOn) [mixArea]
          (updateLightState "light.b" patchOn [mixArea]).2)
    ∧ updateLightState "light.z" patchOn [mixArea] = (none, [mixArea]) :=
  ⟨⟨rfl, (update_light_state_frame "light.b" patchOn [mixArea]).2 rfl⟩,
    (update_light_state_frame "light.z" patchOn [mixArea]).1 (by decide)⟩

/-! ## C2 -/

/-- The registry-derived skeleton of an area: id, name and floor id. -/
def areaKey (a : Area) : String × String × Option String := (a.id, a.name, a.floorId)

/-- `updateFirst` preserves any projection that its update function
preserves. -/
theorem updateFirst_map_eq (g : α → β) (p : α → Bool) (f : α → α)
    (hf : ∀ x, g (f x) = g x) (l : List α) : (updateFirst p f l).map g = l.map g := by
  induction l with
  | nil => rfl
  | cons x xs ih =>
    rw [updateFirst]
    by_cases h : p x
    · simp [h, hf]
    · simp [h, ih]

/-- One `updateLights` iteration preserves the area skeletons. -/
theorem lightStep_map_areaKey (hd : List HassDevice) (he : List HassEntity)
    (hs : List (String × HassEntityState)) (areas : List Area) (eid : String) :
    ((lightStep hd he hs areas eid).1).map areaKey = areas.map areaKey := by
  rw [lightStep]
  repeat' split
  all_goals
    first
      | rfl
      | (show (updateFirst _ _ areas).map areaKey = areas.map areaKey
         apply updateFirst_map_eq
         intro x
         rfl)

/-- The `updateLights` loop preserves the area skeletons. -/
theorem updateLightsGo_map_areaKey (hd : List HassDevice) (he : List HassEntity)
    (hs : List (String × HassEntityState)) :
    ∀ (keys : List String) (areas : List Area),
      ((updateLightsGo hd he hs keys areas).1).map areaKey = areas.map areaKey := by
  intro keys
  induction keys with
  | nil => intro areas; rfl
  | cons eid rest ih =>
    intro areas
    rw [updateLightsGo]
    rcases hstep : lightStep hd he hs areas eid with ⟨areas', err⟩
    have hkey : areas'.map areaKey = areas.map areaKey := by
      have := lightStep_map_areaKey hd he hs areas eid
      rw [hstep] at this
      exact this
    cases err with
    | some e => simpa using hkey
    | none => simpa using (ih areas').trans hkey

/-- The non-sensor projection of an area: skeleton plus lights. -/
def areaKeyL (a : Area) : (String × String × Option String) × List Light :=
  (areaKey a, a.lights)

/-- One `updateSensors` iteration preserves skeletons and lights. -/
theorem dashStep_map_areaKeyL (hd : List HassDevice) (he : List HassEntity)
    (hs : List (String × HassEntityState)) (eid : String) (areas : List Area)
    (dash : DashboardConfig) :
    ((dashStep hd he hs eid areas dash).1).map areaKeyL = areas.map areaKeyL := by
  rw [dashStep]
  repeat' split
  all_goals
    first
      | rfl
      | (show (updateFirst _ _ areas).map areaKeyL = areas.map areaKeyL
         apply updateFirst_map_eq
         intro x
         rfl)

/-- The inner `updateSensors` loop preserves skeletons and lights. -/
theorem dashFold_map_areaKeyL (hd : List HassDevice) (he : List HassEntity)
    (hs : List (String × HassEntityState)) (eid : String) :
    ∀ (cfg : List DashboardConfig) (areas : List Area),
      ((dashFold hd he hs eid cfg areas).1).map areaKeyL = areas.map areaKeyL := by
  intro cfg
  induction cfg with
  | nil => intro areas; rfl
  | cons dash rest ih =>
    intro areas
    rw [dashFold]
    rcases hstep : dashStep hd he hs eid areas dash with ⟨areas', err⟩
    have hkey : areas'.map areaKeyL = areas.map areaKeyL := by
      have := dashStep_map_areaKeyL hd he hs eid areas dash
      rw [hstep] at this
      exact this
    cases err with
    | some e => simpa using hkey
    | none => simpa using (ih areas').trans hkey

/-- The outer `updateSensors` loop preserves skeletons and lights. -/
theorem updateSensorsGo_map_areaKeyL (cfg : List DashboardConfig) (hd : List HassDevice)
    (he : List HassEntity) (hs : List (String × HassEntityState)) :
    ∀ (keys : List String) (areas : List Area),
      ((updateSensorsGo cfg hd he hs keys areas).1).map areaKeyL = areas.map areaKeyL := by
  intro keys
  induction keys with
  | nil => intro areas; rfl
  | cons eid rest ih =>
    intro areas
    rw [updateSensorsGo]
    rcases hstep : dashFold hd he hs eid cfg areas with ⟨areas', err⟩
    have hkey : areas'.map areaKeyL = areas.map areaKeyL := by
      have := dashFold_map_areaKeyL hd he hs eid cfg areas
      rw [hstep] at this
      exact this
    cases err with
    | some e => simpa using hkey
    | none => simpa using (ih areas').trans hkey

/-- `areaKey` factors through `areaKeyL`. -/
theorem map_areaKey_of_map_areaKeyL {l₁ l₂ : List Area}
    (h : l₁.map areaKeyL = l₂.map areaKeyL) : l₁.map areaKey = l₂.map areaKey := by
  have h1 : l₁.map (Prod.fst ∘ areaKeyL) = l₂.map (Prod.fst ∘ areaKeyL) := by
    rw [← List.map_map, ← List.map_map, h]
  simpa [Function.comp, areaKeyL] using h1

/-- The rebuild body, fail or succeed, always leaves the areas with the
skeletons of the freshly applied `updateAreas`. -/
theorem rebuildRun_map_areaKey (cfg : List DashboardConfig) (areas0 : List Area)
    (ha : List HassArea) (hd : List HassDevice) (he : List HassEntity)
    (hs : List (String × HassEntityState)) :
    ((rebuildRun cfg areas0 ha hd he hs).1).map areaKey
      = (updateAreas areas0 ha).map areaKey := by
  rw [rebuildRun]
  rcases hlights : updateLights hd he hs (updateAreas areas0 ha) with ⟨a2, err⟩
  have h2 : a2.map areaKey = (updateAreas areas0 ha).map areaKey := by
    have := updateLightsGo_map_areaKey hd he hs (hs.map Prod.fst) (updateAreas areas0 ha)
    rw [show updateLightsGo hd he hs (hs.map Prod.fst) (updateAreas areas0 ha)
        = updateLights hd he hs (updateAreas areas0 ha) from rfl, hlights] at this
    exact this
  cases err with
  | some e => simpa using h2
  | none =>
    have := updateSensorsGo_map_areaKeyL cfg hd he hs (hs.map Prod.fst) a2
    have hsens := map_areaKey_of_map_areaKeyL this
    simpa [updateSensors] using hsens.trans h2

/-- C2 (amended): when a structural violation aborts the rebuild, the
error propagates, the four buffers are left uncleared (not reset), and
the model is *not* rolled back: `data.areas` already carries the
skeletons of the new registry snapshot merged by `updateAreas`. -/
theorem rebuild_abort_partial (cfg : List DashboardConfig) (s : DMState)
    (ha : List HassArea) (hd : List HassDevice) (he : List HassEntity)
    (hs : List (String × HassEntityState)) (s' : DMState) (e : String)
    (hA : s.inAreas = some ha) (hD : s.inDevices = some hd)
    (hE : s.inEntities = some he) (hS : s.inStates = some hs)
    (hrun : syncData cfg s = (s', .fireErr e)) :
    (s'.inAreas = some ha ∧ s'.inDevices = some hd
      ∧ s'.inEntities = some he ∧ s'.inStates = some hs)
    ∧ s'.areas.map areaKey = (updateAreas s.areas ha).map areaKey := by
  simp only [syncData, hA, hD, hE, hS] at hrun
  rcases hrb : rebuildRun cfg s.areas ha hd he hs with ⟨a', err⟩
  rw [hrb] at hrun
  cases err with
  | none => simp at hrun
  | some e' =>
    have hs' : s' = { areas := a', inAreas := some ha, inDevices := some hd, inEntities := some he, inStates := some hs } := by
      have := congrArg Prod.fst hrun
      simpa using this.symm
    have hkey := rebuildRun_map_areaKey cfg s.areas ha hd he hs
    rw [hrb] at hkey
    subst hs'
    exact ⟨⟨rfl, rfl, rfl, rfl⟩, hkey⟩

/-- A `DataManager` state with a full quartet whose states map holds a
light entity absent from the (empty) entity registry. -/
def syncFail0 : DMState :=
  { areas := [],
    inAreas := some [{ area_id := "office", floor_id := none, name := "Office" }],
    inDevices := some [], inEntities := some [],
    inStates := some [("light.x", { s := some "on", a := none })] }

/-- C2 counterexample: the rebuild aborts with "Entity not found", yet
the model is NOT left as it was — `updateAreas` had already replaced
`data.areas` before `updateLights` threw, so the abort is not
all-or-nothing. -/
theorem rebuild_abort_not_atomic :
    (syncData dashboardConfigs syncFail0).2 = SyncFlag.fireErr "Entity not found: light.x"
    ∧ ((syncData dashboardConfigs syncFail0).1).areas ≠ syncFail0.areas := by
  exact ⟨by decide, by decide⟩

/-- C2 witness for the amended theorem at the concrete failing quartet. -/
theorem rebuild_abort_partial_witness :
    (((syncData dashboardConfigs syncFail0).1).inAreas
        = some [{ area_id := "office", floor_id := none, name := "Office" }]
      ∧ ((syncData dashboardConfigs syncFail0).1).inDevices = some []
      ∧ ((syncData dashboardConfigs syncFail0).1).inEntities = some []
      ∧ ((syncData dashboardConfigs syncFail0).1).inStates
        = some [("light.x", { s := some "on", a := none })])
    ∧ ((syncData dashboardConfigs syncFail0).1).areas.map areaKey
      = (updateAreas syncFail0.areas
          [{ area_id := "office", floor_id := none, name := "Office" }]).map areaKey :=
  rebuild_abort_partial dashboardConfigs syncFail0
    [{ area_id := "office", floor_id := none, name := "Office" }] [] []
    [("light.x", { s := some "on", a := none })]
    (syncData dashboardConfigs syncFail0).1 "Entity not found: light.x"
    rfl rfl rfl rfl (by decide)

/-! ## C5 -/

/-- A `DataManager` that has buffered the states snapshot (`light.desk`
off) but not yet the other three registries. -/
def heldState : DMState := { dmInit with inStates := some [("light.desk", stOff)] }

/-- C5 counterexample: a light-domain patch (to `"on"`) arriving before
any states snapshot is dropped — the handler goes through
`updateLightState` on the still-empty model, leaving the state
unchanged — and the next completed rebuild shows the snapshot's `"off"`,
not the patch's `"on"`. -/
theorem patch_before_snapshot_dropped :
    isLightId "light.desk" = true
    ∧ (handleStateChange dashboardConfigs dmInit [("light.desk", patchOn)]).1 = dmInit
    ∧ (runEvents dashboardConfigs
        (handleStateChange dashboardConfigs dmInit [("light.desk", patchOn)]).1
        [.areas cfgAreas, .devices [deskDevice], .entities [deskEntity],
          .entityStates [("light.desk", stOff)]]).areas.map
        (fun a => a.lights.map Light.state) = [[], [], [], [LightState.off]]
    ∧ getLightState patchOn.s = LightState.on := by
  exact ⟨rfl, by decide, by decide, rfl⟩

/-- Upserting at a key makes the lookup at that key return the new
value. -/
theorem lookupAssoc_assocUpsert (b : List (String × HassEntityState)) (k : String)
    (v : HassEntityState) : lookupAssoc (assocUpsert b k v) k = some v := by
  induction b with
  | nil => simp [assocUpsert, lookupAssoc]
  | cons p rest ih =>
    rw [assocUpsert]
    by_cases h : p.1 = k
    · simp [h, lookupAssoc]
    · rw [if_neg (by simp [h])]
      rw [lookupAssoc, List.find?]
      rw [show (p.1 == k) = false from by simp [h]]
      exact ih

/-- C5 (amended): a patch received while the states buffer is held is
retained — the handler merges it into the buffered snapshot with patch
fields winning and reflects it in the next completed rebuild; a
light-domain patch arriving before any snapshot (previous theorem) is
applied to the empty live model and dropped instead. -/
theorem patch_buffer_merge :
    (∀ (cfg : List DashboardConfig) (s : DMState) (buf changes : List (String × HassEntityState)),
      s.inStates = some buf →
        handleStateChange cfg s changes
          = ({ s with inStates := some (applyChangesToBuffer buf changes) }, none))
    ∧ (∀ (buf : List (String × HassEntityState)) (eid : String) (chg : HassEntityState) (v : String),
        chg.s = some v →
          ∃ m, lookupAssoc (applyChangesToBuffer buf [(eid, chg)]) eid = some m ∧ m.s = some v)
    ∧ (runEvents dashboardConfigs
        (handleStateChange dashboardConfigs heldState [("light.desk", patchOn)]).1
        [.areas cfgAreas, .devices [deskDevice], .entities [deskEntity]]).areas.map
        (fun a => a.lights.map Light.state) = [[], [], [], [LightState.on]] := by
  refine ⟨?_, ?_, by decide⟩
  · intro cfg s buf changes h
    simp only [handleStateChange, h]
  · intro buf eid chg v h
    refine ⟨mergeEntityState (lookupAssoc buf eid) chg, ?_, ?_⟩
    · exact lookupAssoc_assocUpsert buf eid _
    · simp [mergeEntityState, h]

/-- C5 witness at the held snapshot and the `"on"` patch. -/
theorem patch_buffer_merge_witness :
    (heldState.inStates = some [("light.desk", stOff)]
      ∧ handleStateChange dashboardConfigs heldState [("light.desk", patchOn)]
        = ({ heldState with inStates := some (applyChangesToBuffer [("light.desk", stOff)] [("light.desk", patchOn)]) }, none))
    ∧ (patchOn.s = some "on"
      ∧ ∃ m, lookupAssoc (applyChangesToBuffer [("light.desk", stOff)] [("light.desk", patchOn)]) "light.desk" = some m
          ∧ m.s = some "on") :=
  ⟨⟨rfl, patch_buffer_merge.1 dashboardConfigs heldState [("light.desk", stOff)] [("light.desk", patchOn)] rfl⟩,
    ⟨rfl, patch_buffer_merge.2.1 [("light.desk", stOff)] "light.desk" patchOn "on" rfl⟩⟩

/-! ## C1 -/

/-- Whether the staging buffer of a given kind is non-null. -/
def bufIsSet (s : DMState) : RKind → Bool
  | .areas => s.inAreas.isSome
  | .devices => s.inDevices.isSome
  | .entities => s.inEntities.isSome
  | .entityStates => s.inStates.isSome

/-- `syncData` does not fire while any buffer is still null. -/
theorem syncData_noFire (cfg : List DashboardConfig) (s : DMState) (k : RKind)
    (hk : bufIsSet s k = false) : syncData cfg s = (s, .noFire) := by
  rcases hA : s.inAreas with _ | ha <;> rcases hD : s.inDevices with _ | hd <;>
    rcases hE : s.inEntities with _ | he <;> rcases hS : s.inStates with _ | hs <;>
    cases k <;> simp_all [syncData, bufIsSet]

/-- Storing an event of a different kind does not set the `k` buffer. -/
theorem setBuf_bufIsSet_ne (s : DMState) (ev : RegistryEvent) (k : RKind)
    (hne : ev.kind ≠ k) : bufIsSet (setBuf s ev) k = bufIsSet s k := by
  cases ev <;> cases k <;> simp_all [setBuf, bufIsSet, RegistryEvent.kind]

/-- Buffer writes without the `syncData` attempt. -/
def writeBufs (s : DMState) (l : List RegistryEvent) : DMState := l.foldl setBuf s

/-- While a kind is missing (and its buffer null), delivering events only
writes buffers: no rebuild fires. -/
theorem run_while_kind_missing (cfg : List DashboardConfig) :
    ∀ (l : List RegistryEvent) (s : DMState) (k : RKind),
      (∀ e ∈ l, e.kind ≠ k) → bufIsSet s k = false →
      runEvents cfg s l = writeBufs s l ∧ fireCount cfg s l = 0 := by
  intro l
  induction l with
  | nil => exact fun s k _ _ => ⟨rfl, rfl⟩
  | cons e rest ih =>
    intro s k h hk
    have hkind : e.kind ≠ k := h e (by simp)
    have hset : bufIsSet (setBuf s e) k = false := by
      rw [setBuf_bufIsSet_ne s e k hkind]; exact hk
    have happly : applyRegistryEvent cfg s e = (setBuf s e, .noFire) :=
      syncData_noFire cfg (setBuf s e) k hset
    have hrest := ih (setBuf s e) k (fun e' he' => h e' (by simp [he'])) hset
    constructor
    · rw [runEvents, happly]
      exact hrest.1
    · rw [fireCount, happly]
      exact hrest.2

/-- `runEvents` over an appended list. -/
theorem runEvents_append (cfg : List DashboardConfig) :
    ∀ (l₁ l₂ : List RegistryEvent) (s : DMState),
      runEvents cfg s (l₁ ++ l₂) = runEvents cfg (runEvents cfg s l₁) l₂ := by
  intro l₁
  induction l₁ with
  | nil => intro l₂ s; rfl
  | cons e rest ih =>
    intro l₂ s
    rw [List.cons_append, runEvents, runEvents, ih]

/-- `fireCount` over an appended list. -/
theorem fireCount_append (cfg : List DashboardConfig) :
    ∀ (l₁ l₂ : List RegistryEvent) (s : DMState),
      fireCount cfg s (l₁ ++ l₂) = fireCount cfg s l₁ + fireCount cfg (runEvents cfg s l₁) l₂ := by
  intro l₁
  induction l₁ with
  | nil => intro l₂ s; simp [fireCount, runEvents]
  | cons e rest ih =>
    intro l₂ s
    rw [List.cons_append, fireCount, fireCount, runEvents]
    rcases happly : applyRegistryEvent cfg s e with ⟨s', flag⟩
    cases flag <;> simp [ih, Nat.add_assoc]

/-- C1: for every ordering of one areas, one devices, one entities and one
entity-states event delivered to a fresh `DataManager` whose quartet
rebuilds cleanly, the rebuild body runs exactly once — only at the last of
the four events — after which all four buffers are null again, and no
further rebuild fires as long as some kind is still missing from the next
round. -/
theorem staged_buffer (cfg : List DashboardConfig) (ha : List HassArea)
    (hd : List HassDevice) (he : List HassEntity)
    (hs : List (String × HassEntityState)) (l : List RegistryEvent)
    (hperm : l.Perm [.areas ha, .devices hd, .entities he, .entityStates hs])
    (hok : (rebuildRun cfg [] ha hd he hs).2 = none) :
    fireCount cfg dmInit l = 1
    ∧ fireCount cfg dmInit l.dropLast = 0
    ∧ ((runEvents cfg dmInit l).inAreas = none
      ∧ (runEvents cfg dmInit l).inDevices = none
      ∧ (runEvents cfg dmInit l).inEntities = none
      ∧ (runEvents cfg dmInit l).inStates = none)
    ∧ (∀ l₂ : List RegistryEvent, (∃ k, ∀ e ∈ l₂, e.kind ≠ k) →
        fireCount cfg (runEvents cfg dmInit l) l₂ = 0) := by
  have hlen : l.length = 4 := by simpa using hperm.length_eq
  have hne : l ≠ [] := by
    intro h
    rw [h] at hlen
    simp at hlen
  obtain ⟨init, e4, rfl⟩ : ∃ init e4, l = init ++ [e4] :=
    ⟨l.dropLast, l.getLast hne, (List.dropLast_append_getLast hne).symm⟩
  have hdl : (init ++ [e4]).dropLast = init := by simp
  have hknodup : ((init ++ [e4]).map RegistryEvent.kind).Nodup := by
    have hpk := hperm.map RegistryEvent.kind
    refine hpk.nodup_iff.mpr ?_
    simp [RegistryEvent.kind]
  have hnotmem : e4.kind ∉ init.map RegistryEvent.kind := by
    rw [List.map_append] at hknodup
    have hdisj := (List.nodup_append.mp hknodup).2.2
    intro hmem
    exact hdisj hmem (by simp)
  have hmiss : ∀ e ∈ init, e.kind ≠ e4.kind := by
    intro e hmem heq
    exact hnotmem (heq ▸ List.mem_map_of_mem RegistryEvent.kind hmem)
  have hinit : bufIsSet dmInit e4.kind = false := by
    cases hk : e4.kind <;> rfl
  obtain ⟨hrun_init, hcount_init⟩ :=
    run_while_kind_missing cfg init dmInit e4.kind hmiss hinit
  have hcomm : ∀ x ∈ init ++ [e4], ∀ y ∈ init ++ [e4], ∀ z : DMState,
      setBuf (setBuf z x) y = setBuf (setBuf z y) x := by
    intro x hx y hy z
    have hx4 := hperm.mem_iff.mp hx
    have hy4 := hperm.mem_iff.mp hy
    simp only [List.mem_cons, List.not_mem_nil, or_false] at hx4 hy4
    rcases hx4 with h | h | h | h <;> subst h <;>
      rcases hy4 with h | h | h | h <;> subst h <;> cases z <;> rfl
  have hwb : writeBufs dmInit (init ++ [e4])
      = { areas := [], inAreas := some ha, inDevices := some hd, inEntities := some he, inStates := some hs } := by
    exact hperm.foldl_eq' hcomm dmInit
  have hfull : setBuf (writeBufs dmInit init) e4
      = { areas := [], inAreas := some ha, inDevices := some hd, inEntities := some he, inStates := some hs } := by
    rw [← hwb, writeBufs, writeBufs, List.foldl_append]
    rfl
  rcases hrb : rebuildRun cfg [] ha hd he hs with ⟨m1, err⟩
  have herr : err = none := by
    have := congrArg Prod.snd hrb
    simp at this
    rw [← this]
    exact hok
  subst herr
  have hsync : applyRegistryEvent cfg (writeBufs dmInit init) e4
      = ({ areas := m1, inAreas := none, inDevices := none, inEntities := none, inStates := none }, .fireOk) := by
    rw [applyRegistryEvent, hfull, syncData]
    simp [hrb]
  have hruns : runEvents cfg dmInit (init ++ [e4])
      = { areas := m1, inAreas := none, inDevices := none, inEntities := none, inStates := none } := by
    rw [runEvents_append, hrun_init, runEvents, hsync]
    rfl
  refine ⟨?_, ?_, ?_, ?_⟩
  · rw [fireCount_append, hcount_init, hrun_init, fireCount, hsync]
    rfl
  · rw [hdl]
    exact hcount_init
  · rw [hruns]
    exact ⟨rfl, rfl, rfl, rfl⟩
  · intro l₂ hex
    obtain ⟨k, hkmiss⟩ := hex
    have hclear : bufIsSet (runEvents cfg dmInit (init ++ [e4])) k = false := by
      rw [hruns]
      cases k <;> rfl
    exact (run_while_kind_missing cfg l₂ (runEvents cfg dmInit (init ++ [e4])) k hkmiss hclear).2

/-- C1 witness: the canonical order with empty payloads. -/
theorem staged_buffer_witness :
    fireCount dashboardConfigs dmInit
      [.areas [], .devices [], .entities [], .entityStates []] = 1
    ∧ fireCount dashboardConfigs dmInit
      ([.areas [], .devices [], .entities [], .entityStates []] : List RegistryEvent).dropLast = 0
    ∧ ((runEvents dashboardConfigs dmInit
        [.areas [], .devices [], .entities [], .entityStates []]).inAreas = none
      ∧ (runEvents dashboardConfigs dmInit
        [.areas [], .devices [], .entities [], .entityStates []]).inDevices = none
      ∧ (runEvents dashboardConfigs dmInit
        [.areas [], .devices [], .entities [], .entityStates []]).inEntities = none
      ∧ (runEvents dashboardConfigs dmInit
        [.areas [], .devices [], .entities [], .entityStates []]).inStates = none)
    ∧ (∀ l₂ : List RegistryEvent, (∃ k, ∀ e ∈ l₂, e.kind ≠ k) →
        fireCount dashboardConfigs
          (runEvents dashboardConfigs dmInit
            [.areas [], .devices [], .entities [], .entityStates []]) l₂ = 0) :=
  staged_buffer dashboardConfigs [] [] [] []
    [.areas [], .devices [], .entities [], .entityStates []]
    (List.Perm.refl _) (by decide)

/-! ## C6 — generic lemmas about `updateFirst`, `upsertLight` and `find?` -/

/-- After updating the first `p`-match, `find?` returns its image when
`f` preserves `p`. -/
theorem find?_updateFirst_self (p : α → Bool) (f : α → α) (hp : ∀ x, p (f x) = p x)
    (l : List α) (x : α) (h : l.find? p = some x) :
    (updateFirst p f l).find? p = some (f x) := by
  induction l with
  | nil => simp [List.find?] at h
  | cons z zs ih =>
    rw [updateFirst]
    by_cases hz : p z
    · rw [List.find?_cons_of_pos _ hz] at h
      rw [if_pos hz, List.find?_cons_of_pos _ (by rw [hp]; exact hz)]
      cases h
      rfl
    · rw [List.find?_cons_of_neg _ hz] at h
      rw [if_neg hz, List.find?_cons_of_neg _ hz]
      exact ih h

/-- Updating the first `p`-match with a function that fixes it is the
identity. -/
theorem updateFirst_eq_self (p : α → Bool) (f : α → α) (l : List α) (x : α)
    (h : l.find? p = some x) (hfx : f x = x) : updateFirst p f l = l := by
  induction l with
  | nil => rfl
  | cons z zs ih =>
    rw [updateFirst]
    by_cases hz : p z
    · rw [List.find?_cons_of_pos _ hz] at h
      cases h
      rw [if_pos hz, hfx]
    · rw [List.find?_cons_of_neg _ hz] at h
      rw [if_neg hz, ih h]

/-- Conversely, if updating the first `p`-match changes nothing, `f`
fixes the found element. -/
theorem updateFirst_eq_self_inv (p : α → Bool) (f : α → α) (l : List α) (x : α)
    (h : updateFirst p f l = l) (hfind : l.find? p = some x) : f x = x := by
  induction l with
  | nil => simp [List.find?] at hfind
  | cons z zs ih =>
    rw [updateFirst] at h
    by_cases hz : p z
    · rw [List.find?_cons_of_pos _ hz] at hfind
      cases hfind
      rw [if_pos hz] at h
      exact (List.cons.injEq _ _ _ _ ▸ h).1
    · rw [List.find?_cons_of_neg _ hz] at hfind
      rw [if_neg hz] at h
      exact ih (List.cons.injEq _ _ _ _ ▸ h).2 hfind

/-- Updating the first `q`-match moves a `p`-search to the original
element or to its image, the latter only when the element is a
`q`-match. -/
theorem find?_updateFirst_other (p q : α → Bool) (g : α → α)
    (hp : ∀ x, p (g x) = p x) (l : List α) (x : α) (h : l.find? p = some x) :
    (updateFirst q g l).find? p = some x
    ∨ ((updateFirst q g l).find? p = some (g x) ∧ q x = true) := by
  induction l with
  | nil => simp [List.find?] at h
  | cons z zs ih =>
    rw [updateFirst]
    by_cases hz : q z
    · rw [if_pos hz]
      by_cases hpz : p z
      · rw [List.find?_cons_of_pos _ hpz] at h
        cases h
        right
        exact ⟨List.find?_cons_of_pos _ (by rw [hp]; exact hpz), hz⟩
      · rw [List.find?_cons_of_neg _ hpz] at h
        left
        rw [List.find?_cons_of_neg _ (by rw [hp]; exact hpz)]
        exact h
    · rw [if_neg hz]
      by_cases hpz : p z
      · rw [List.find?_cons_of_pos _ hpz] at h
        cases h
        left
        exact List.find?_cons_of_pos _ hpz
      · rw [List.find?_cons_of_neg _ hpz] at h
        rcases ih h with h' | ⟨h', hq⟩
        · left
          rw [List.find?_cons_of_neg _ hpz]
          exact h'
        · right
          exact ⟨by rw [List.find?_cons_of_neg _ hpz]; exact h', hq⟩

/-- In a list whose id projections are nodup, each element is found by
searching for its own id. -/
theorem find?_self_of_nodup_ids (l : List Area) (hnd : (l.map Area.id).Nodup) :
    ∀ (i : ℕ) (h : i < l.length),
      l.find? (fun a => a.id == (l.get ⟨i, h⟩).id) = some (l.get ⟨i, h⟩) := by
  induction l with
  | nil => intro i h; simp at h
  | cons z zs ih =>
    intro i h
    rw [List.map_cons, List.nodup_cons] at hnd
    cases i with
    | zero => simp [List.find?]
    | succ j =>
      have hj : j < zs.length := by simpa using h
      have hget : (z :: zs).get ⟨j + 1, h⟩ = zs.get ⟨j, hj⟩ := rfl
      rw [hget]
      have hzne : z.id ≠ (zs.get ⟨j, hj⟩).id := by
        intro heq
        exact hnd.1 (heq ▸ List.mem_map_of_mem Area.id (zs.get_mem j hj))
      rw [List.find?_cons_of_neg _ (by simpa using hzne)]
      exact ih hnd.2 j hj

/-- Upserting a light found unchanged at its own entity id is the
identity. -/
theorem upsertLight_eq_self (ls : List Light) (lg : Light)
    (h : ls.find? (fun l => l.entityId == lg.entityId) = some lg) :
    upsertLight ls lg = ls := by
  induction ls with
  | nil => simp [List.find?] at h
  | cons z zs ih =>
    rw [upsertLight]
    by_cases hz : z.entityId = lg.entityId
    · rw [List.find?_cons_of_pos _ (by simp [hz])] at h
      cases h
      rw [if_pos (by simp)]
    · rw [List.find?_cons_of_neg _ (by simp [hz])] at h
      rw [if_neg (by simp [hz]), ih h]

/-- Conversely, an upsert that changes nothing means the light is at its
first match. -/
theorem find?_of_upsertLight_self (ls : List Light) (lg : Light)
    (h : upsertLight ls lg = ls) :
    ls.find? (fun l => l.entityId == lg.entityId) = some lg := by
  induction ls with
  | nil => simp [upsertLight] at h
  | cons z zs ih =>
    rw [upsertLight] at h
    by_cases hz : z.entityId = lg.entityId
    · rw [if_pos (by simp [hz])] at h
      rw [List.find?_cons_of_pos _ (by simp [hz])]
      exact congrArg some ((List.cons.injEq _ _ _ _ ▸ h).1.symm)
    · rw [if_neg (by simp [hz])] at h
      rw [List.find?_cons_of_neg _ (by simp [hz])]
      exact ih (List.cons.injEq _ _ _ _ ▸ h).2

/-- Upserting a light with a different entity id does not move a
`find?` at this entity id. -/
theorem find?_upsertLight_ne (ls : List Light) (lg : Light) (eid : String)
    (hne : lg.entityId ≠ eid) :
    (upsertLight ls lg).find? (fun l => l.entityId == eid)
      = ls.find? (fun l => l.entityId == eid) := by
  have hbe : (lg.entityId == eid) = false := by simp [hne]
  induction ls with
  | nil => simp [upsertLight, List.find?, hbe]
  | cons z zs ih =>
    rw [upsertLight]
    by_cases hz : z.entityId = lg.entityId
    · rw [if_pos (by simp [hz])]
      have hzne : z.entityId ≠ eid := by rw [hz]; exact hne
      rw [List.find?_cons_of_neg _ (by simp [hne]), List.find?_cons_of_neg _ (by simp [hzne])]
    · rw [if_neg (by simp [hz])]
      by_cases hze : z.entityId = eid
      · rw [List.find?_cons_of_pos _ (by simp [hze]), List.find?_cons_of_pos _ (by simp [hze])]
      · rw [List.find?_cons_of_neg _ (by simp [hze]), List.find?_cons_of_neg _ (by simp [hze])]
        exact ih

/-- After an upsert, the first match at the upserted entity id is the
upserted light. -/
theorem find?_upsertLight_self (ls : List Light) (lg : Light) :
    (upsertLight ls lg).find? (fun l => l.entityId == lg.entityId) = some lg := by
  induction ls with
  | nil => simp [upsertLight, List.find?]
  | cons z zs ih =>
    rw [upsertLight]
    by_cases hz : z.entityId = lg.entityId
    · rw [if_pos (by simp [hz])]
      exact List.find?_cons_of_pos _ (by simp)
    · rw [if_neg (by simp [hz])]
      rw [List.find?_cons_of_neg _ (by simp [hz])]
      exact ih

/-- Writing back an area's own lights is the identity. -/
theorem area_set_lights_self (a : Area) : ({ a with lights := a.lights } : Area) = a := rfl

/-- `buildLight` reads only the id and name of the area. -/
theorem buildLight_congr (a b : Area) (dev : HassDevice) (eid : String)
    (st : HassEntityState) (hid : a.id = b.id) (hname : a.name = b.name) :
    buildLight a dev eid st = buildLight b dev eid st := by
  simp [buildLight, hid, hname]

/-- Evaluate `lightStep` on a non-light entity id. -/
theorem lightStep_eval_notlight (hd : List HassDevice) (he : List HassEntity)
    (hs : List (String × HassEntityState)) (A : List Area) (eid : String)
    (hl : isLightId eid = false) : lightStep hd he hs A eid = (A, none) := by
  rw [lightStep, if_pos hl]

/-- Evaluate `lightStep` when the looked-up state is absent. -/
theorem lightStep_eval_nostate (hd : List HassDevice) (he : List HassEntity)
    (hs : List (String × HassEntityState)) (A : List Area) (eid : String)
    (ent : HassEntity) (dev : HassDevice) (area : Area)
    (hl : isLightId eid = true)
    (hget : getStateEntityDeviceForEntityId eid hd he hs = .ok (none, ent, dev))
    (hfind : A.find? (fun a => dev.area_id == some a.id) = some area) :
    lightStep hd he hs A eid = (A, none) := by
  rw [lightStep, if_neg (by simp [hl])]
  simp only [hget, hfind]

/-- Evaluate `lightStep` in the upsert case. -/
theorem lightStep_eval_update (hd : List HassDevice) (he : List HassEntity)
    (hs : List (String × HassEntityState)) (A : List Area) (eid : String)
    (ent : HassEntity) (dev : HassDevice) (area : Area) (st : HassEntityState)
    (hl : isLightId eid = true)
    (hget : getStateEntityDeviceForEntityId eid hd he hs = .ok (some st, ent, dev))
    (hfind : A.find? (fun a => dev.area_id == some a.id) = some area) :
    lightStep hd he hs A eid
      = (updateFirst (fun a => dev.area_id == some a.id)
          (fun a => { a with lights := upsertLight a.lights (buildLight area dev eid st) }) A,
        none) := by
  rw [lightStep, if_neg (by simp [hl])]
  simp only [hget, hfind]

/-- Exhaustive description of a non-throwing `lightStep`. -/
theorem lightStep_none_cases (hd : List HassDevice) (he : List HassEntity)
    (hs : List (String × HassEntityState)) (A A' : List Area) (eid : String)
    (h : lightStep hd he hs A eid = (A', none)) :
    (isLightId eid = false ∧ A' = A)
    ∨ (∃ ent dev area, isLightId eid = true
        ∧ getStateEntityDeviceForEntityId eid hd he hs = .ok (none, ent, dev)
        ∧ A.find? (fun a => dev.area_id == some a.id) = some area ∧ A' = A)
    ∨ (∃ ent dev area st, isLightId eid = true
        ∧ getStateEntityDeviceForEntityId eid hd he hs = .ok (some st, ent, dev)
        ∧ A.find? (fun a => dev.area_id == some a.id) = some area
        ∧ A' = updateFirst (fun a => dev.area_id == some a.id)
            (fun a => { a with lights := upsertLight a.lights (buildLight area dev eid st) }) A) := by
  by_cases hl : isLightId eid = false
  · rw [lightStep_eval_notlight hd he hs A eid hl] at h
    exact Or.inl ⟨hl, (Prod.mk.injEq _ _ _ _ ▸ h).1.symm⟩
  · have hl' : isLightId eid = true := by simpa using hl
    rw [lightStep, if_neg hl] at h
    rcases hget : getStateEntityDeviceForEntityId eid hd he hs with e | ⟨stOpt, ent, dev⟩ <;>
      rw [hget] at h
    · simp at h
    · rcases hfind : A.find? (fun a => dev.area_id == some a.id) with _ | area <;>
        simp only [hfind] at h
      · simp at h
      · cases stOpt with
        | none =>
          simp only [] at h
          refine Or.inr (Or.inl ⟨ent, dev, area, hl', rfl, hfind, ?_⟩)
          exact (Prod.mk.injEq _ _ _ _ ▸ h).1.symm
        | some st =>
          simp only [] at h
          refine Or.inr (Or.inr ⟨ent, dev, area, st, hl', rfl, hfind, ?_⟩)
          exact (Prod.mk.injEq _ _ _ _ ▸ h).1.symm

/-- L1: once a `lightStep` has run without error, running it again on the
result changes nothing. -/
theorem lightStep_resolve (hd : List HassDevice) (he : List HassEntity)
    (hs : List (String × HassEntityState)) (A A' : List Area) (eid : String)
    (h : lightStep hd he hs A eid = (A', none)) :
    lightStep hd he hs A' eid = (A', none) := by
  rcases lightStep_none_cases hd he hs A A' eid h with ⟨hl, rfl⟩ | ⟨ent, dev, area, hl, hget, hfind, rfl⟩
      | ⟨ent, dev, area, st, hl, hget, hfind, rfl⟩
  · exact h
  · exact h
  · have hfind' := find?_updateFirst_self (fun a => dev.area_id == some a.id)
      (fun a => { a with lights := upsertLight a.lights (buildLight area dev eid st) })
      (fun x => rfl) A area hfind
    rw [lightStep_eval_update hd he hs _ eid ent dev _ st hl hget hfind']
    have hcongr : buildLight
        ({ area with lights := upsertLight area.lights (buildLight area dev eid st) }) dev eid st
        = buildLight area dev eid st := buildLight_congr _ _ _ _ _ rfl rfl
    rw [Prod.mk.injEq]
    refine ⟨?_, rfl⟩
    simp only [hcongr]
    apply updateFirst_eq_self _ _ _ _ hfind'
    have hups : upsertLight (upsertLight area.lights (buildLight area dev eid st))
        (buildLight area dev eid st)
        = upsertLight area.lights (buildLight area dev eid st) :=
      upsertLight_eq_self _ _ (find?_upsertLight_self area.lights (buildLight area dev eid st))
    simp only [hups]

/-- `buildLight` puts the entity id into the `entityId` field. -/
theorem buildLight_entityId (area : Area) (dev : HassDevice) (eid : String)
    (st : HassEntityState) : (buildLight area dev eid st).entityId = eid := rfl

/-- L2: a non-throwing `lightStep` for one entity id preserves the
no-op-ness of the `lightStep` of every other entity id. -/
theorem lightStep_preserve (hd : List HassDevice) (he : List HassEntity)
    (hs : List (String × HassEntityState)) (A A' : List Area) (eid eid' : String)
    (hstep : lightStep hd he hs A eid' = (A', none)) (hne : eid ≠ eid')
    (hid : lightStep hd he hs A eid = (A, none)) :
    lightStep hd he hs A' eid = (A', none) := by
  rcases lightStep_none_cases hd he hs A A' eid' hstep with ⟨_, rfl⟩
      | ⟨_, _, _, _, _, _, rfl⟩
      | ⟨ent', dev', area', st', hl', hget', hfind', rfl⟩
  · exact hid
  · exact hid
  · set g : Area → Area :=
      fun a => { a with lights := upsertLight a.lights (buildLight area' dev' eid' st') } with hg
    set q : Area → Bool := fun a => dev'.area_id == some a.id with hq
    rcases lightStep_none_cases hd he hs A A eid hid with ⟨hl, -⟩
        | ⟨ent, dev, area, hl, hget, hfind, -⟩
        | ⟨ent, dev, area, st, hl, hget, hfind, hAeq⟩
    · exact lightStep_eval_notlight hd he hs _ eid hl
    · rcases find?_updateFirst_other (fun a => dev.area_id == some a.id) q g
          (fun x => by rw [hg]) A area hfind with hf | ⟨hf, -⟩
      · exact lightStep_eval_nostate hd he hs _ eid ent dev area hl hget hf
      · exact lightStep_eval_nostate hd he hs _ eid ent dev (g area) hl hget hf
    · have hfx : (fun a => { a with lights := upsertLight a.lights (buildLight area dev eid st) }) area = area :=
        updateFirst_eq_self_inv _ _ A area hAeq.symm hfind
      have hlights : upsertLight area.lights (buildLight area dev eid st) = area.lights := by
        have := congrArg Area.lights hfx
        simpa using this
      have hfound : area.lights.find? (fun l => l.entityId == (buildLight area dev eid st).entityId)
          = some (buildLight area dev eid st) := find?_of_upsertLight_self _ _ hlights
      rcases find?_updateFirst_other (fun a => dev.area_id == some a.id) q g
          (fun x => by rw [hg]) A area hfind with hf | ⟨hf, -⟩
      · rw [lightStep_eval_update hd he hs _ eid ent dev area st hl hget hf]
        rw [Prod.mk.injEq]
        refine ⟨?_, rfl⟩
        apply updateFirst_eq_self _ _ _ _ hf
        exact hfx
      · rw [lightStep_eval_update hd he hs _ eid ent dev (g area) st hl hget hf]
        rw [Prod.mk.injEq]
        refine ⟨?_, rfl⟩
        have hcongr : buildLight (g area) dev eid st = buildLight area dev eid st :=
          buildLight_congr _ _ _ _ _ rfl rfl
        simp only [hcongr]
        apply updateFirst_eq_self _ _ _ _ hf
        have hfind_g : (g area).lights.find?
            (fun l => l.entityId == (buildLight area dev eid st).entityId)
            = some (buildLight area dev eid st) := by
          have hne' : (buildLight area' dev' eid' st').entityId
              ≠ (buildLight area dev eid st).entityId := by
            rw [buildLight_entityId, buildLight_entityId]
            exact fun hcontra => hne hcontra.symm
          calc (g area).lights.find? (fun l => l.entityId == (buildLight area dev eid st).entityId)
              = (upsertLight area.lights (buildLight area' dev' eid' st')).find?
                  (fun l => l.entityId == (buildLight area dev eid st).entityId) := rfl
            _ = area.lights.find? (fun l => l.entityId == (buildLight area dev eid st).entityId) :=
                find?_upsertLight_ne _ _ _ hne'
            _ = some (buildLight area dev eid st) := hfound
        have hups : upsertLight (g area).lights (buildLight area dev eid st) = (g area).lights :=
          upsertLight_eq_self _ _ hfind_g
        simp only [hups]

/-- Two area lists with equal skeleton-and-lights projections agree on
`find?` for every predicate reading only the id. -/
theorem find?_corr_keyL (p : Area → Bool) (hp : ∀ a b : Area, a.id = b.id → p a = p b) :
    ∀ (A B : List Area), A.map areaKeyL = B.map areaKeyL →
      (A.find? p = none ∧ B.find? p = none)
      ∨ ∃ x y, A.find? p = some x ∧ B.find? p = some y ∧ areaKeyL x = areaKeyL y := by
  intro A
  induction A with
  | nil =>
    intro B hB
    cases B with
    | nil => exact Or.inl ⟨rfl, rfl⟩
    | cons b bs => simp at hB
  | cons a as ih =>
    intro B hB
    cases B with
    | nil => simp at hB
    | cons b bs =>
      rw [List.map_cons, List.map_cons] at hB
      have hhead : areaKeyL a = areaKeyL b := (List.cons.injEq _ _ _ _ ▸ hB).1
      have htail : as.map areaKeyL = bs.map areaKeyL := (List.cons.injEq _ _ _ _ ▸ hB).2
      have hid : a.id = b.id := congrArg (fun k => k.1.1) hhead
      by_cases hpa : p a
      · have hpb : p b := by rw [← hp a b hid]; exact hpa
        exact Or.inr ⟨a, b, List.find?_cons_of_pos _ hpa, List.find?_cons_of_pos _ hpb, hhead⟩
      · have hpb : ¬ p b = true := by rw [← hp a b hid]; exact hpa
        rw [List.find?_cons_of_neg _ hpa, List.find?_cons_of_neg _ hpb]
        exact ih bs htail

/-- L6: no-op-ness of a `lightStep` transfers along equal
skeleton-and-lights projections (e.g. across sensor updates). -/
theorem lightStep_transfer (hd : List HassDevice) (he : List HassEntity)
    (hs : List (String × HassEntityState)) (A B : List Area) (eid : String)
    (hkey : A.map areaKeyL = B.map areaKeyL)
    (hid : lightStep hd he hs A eid = (A, none)) :
    lightStep hd he hs B eid = (B, none) := by
  rcases lightStep_none_cases hd he hs A A eid hid with ⟨hl, -⟩
      | ⟨ent, dev, area, hl, hget, hfind, -⟩
      | ⟨ent, dev, area, st, hl, hget, hfind, hAeq⟩
  · exact lightStep_eval_notlight hd he hs B eid hl
  · rcases find?_corr_keyL (fun a => dev.area_id == some a.id)
        (fun a b h => by simp only [h]) A B hkey with ⟨hnA, -⟩ | ⟨x, y, hfA, hfB, -⟩
    · rw [hfind] at hnA
      cases hnA
    · exact lightStep_eval_nostate hd he hs B eid ent dev y hl hget hfB
  · rcases find?_corr_keyL (fun a => dev.area_id == some a.id)
        (fun a b h => by simp only [h]) A B hkey with ⟨hnA, -⟩ | ⟨x, y, hfA, hfB, hxy⟩
    · rw [hfind] at hnA
      cases hnA
    · rw [hfind] at hfA
      cases hfA
      have hfx : (fun a => { a with lights := upsertLight a.lights (buildLight area dev eid st) }) area = area :=
        updateFirst_eq_self_inv _ _ A area hAeq.symm hfind
      have hlights : upsertLight area.lights (buildLight area dev eid st) = area.lights := by
        have := congrArg Area.lights hfx
        simpa using this
      have hyid : y.id = area.id := (congrArg (fun k => k.1.1) hxy).symm
      have hyname : y.name = area.name := (congrArg (fun k => k.1.2.1) hxy).symm
      have hylights : y.lights = area.lights := (congrArg (fun k => k.2) hxy).symm
      rw [lightStep_eval_update hd he hs B eid ent dev y st hl hget hfB]
      rw [Prod.mk.injEq]
      refine ⟨?_, rfl⟩
      have hcongr : buildLight y dev eid st = buildLight area dev eid st :=
        buildLight_congr _ _ _ _ _ hyid hyname
      simp only [hcongr]
      apply updateFirst_eq_self _ _ _ _ hfB
      have hyups : upsertLight y.lights (buildLight area dev eid st) = y.lights := by
        rw [hylights, hlights]
      simp only [hyups]

/-- The `updateLights` loop is a no-op once every key's step is one. -/
theorem updateLightsGo_id (hd : List HassDevice) (he : List HassEntity)
    (hs : List (String × HassEntityState)) :
    ∀ (keys : List String) (A : List Area),
      (∀ eid ∈ keys, lightStep hd he hs A eid = (A, none)) →
      updateLightsGo hd he hs keys A = (A, none) := by
  intro keys
  induction keys with
  | nil => intro A _; rfl
  | cons eid rest ih =>
    intro A h
    rw [updateLightsGo, h eid (by simp)]
    exact ih A (fun e he' => h e (by simp [he']))

/-- Chaining L2 along a run of `updateLights` steps. -/
theorem updateLightsGo_preserve (hd : List HassDevice) (he : List HassEntity)
    (hs : List (String × HassEntityState)) :
    ∀ (keys : List String) (A A' : List Area) (eid : String),
      updateLightsGo hd he hs keys A = (A', none) → eid ∉ keys →
      lightStep hd he hs A eid = (A, none) →
      lightStep hd he hs A' eid = (A', none) := by
  intro keys
  induction keys with
  | nil =>
    intro A A' eid hrun _ hid
    cases hrun
    exact hid
  | cons k rest ih =>
    intro A A' eid hrun hnot hid
    rw [updateLightsGo] at hrun
    rcases hstep : lightStep hd he hs A k with ⟨A₁, err⟩
    rw [hstep] at hrun
    cases err with
    | some e => simp at hrun
    | none =>
      simp only [] at hrun
      have hne : eid ≠ k := fun h => hnot (h ▸ List.mem_cons_self k rest)
      have hid₁ := lightStep_preserve hd he hs A A₁ eid k hstep hne hid
      exact ih A₁ A' eid hrun (fun h => hnot (List.mem_cons_of_mem k h)) hid₁

/-- L4: after a clean `updateLights` run with nodup keys, every key's
step is a no-op on the final state. -/
theorem updateLightsGo_resolved (hd : List HassDevice) (he : List HassEntity)
    (hs : List (String × HassEntityState)) :
    ∀ (keys : List String) (A A' : List Area),
      keys.Nodup → updateLightsGo hd he hs keys A = (A', none) →
      ∀ eid ∈ keys, lightStep hd he hs A' eid = (A', none) := by
  intro keys
  induction keys with
  | nil => intro A A' _ _ eid h; simp at h
  | cons k rest ih =>
    intro A A' hnd hrun eid hmem
    rw [updateLightsGo] at hrun
    rcases hstep : lightStep hd he hs A k with ⟨A₁, err⟩
    rw [hstep] at hrun
    cases err with
    | some e => simp at hrun
    | none =>
      simp only [] at hrun
      rw [List.nodup_cons] at hnd
      rcases List.mem_cons.mp hmem with rfl | hmem'
      · exact updateLightsGo_preserve hd he hs rest A₁ A' eid hrun hnd.1
          (lightStep_resolve hd he hs A A₁ eid hstep)
      · exact ih A₁ A' hnd.2 hrun eid hmem'

/-- The three sensor slots of an area, used to state the `updateSensors`
lemmas uniformly. -/
inductive SField where
  | hum
  | temp
  | co2
  deriving DecidableEq

/-- Read a sensor slot. -/
def sGet : SField → Area → Option Sensor
  | .hum, a => a.humiditySensor
  | .temp, a => a.temperatureSensor
  | .co2, a => a.carbonDioxideSensor

/-- Write a sensor slot. -/
def sSet : SField → Option Sensor → Area → Area
  | .hum, v, a => { a with humiditySensor := v }
  | .temp, v, a => { a with temperatureSensor := v }
  | .co2, v, a => { a with carbonDioxideSensor := v }

/-- Which configured sensor of a dashboard an entity id matches,
respecting the branch order of `updateSensors` (humidity, then
temperature, then carbon dioxide). -/
def matchedSensorField (dash : DashboardConfig) (eid : String) : Option SField :=
  if dash.humiditySensorEntityId == some eid then some .hum
  else if dash.temperatureSensorEntityId == some eid then some .temp
  else if dash.carbonDioxideSensorEntityId == some eid then some .co2
  else none

/-- The sensor record built for a slot. -/
def mkSensorFor : SField → DashboardConfig → Area → HassDevice → String → HassEntityState → Sensor
  | .hum, _, area, dev, eid, st => mkHumiditySensor area dev eid st
  | .temp, dash, area, dev, eid, st => mkTemperatureSensor dash area dev eid st
  | .co2, _, area, dev, eid, st => mkCarbonDioxideSensor area dev eid st

/-- `dashStep` written through the slot helpers. -/
theorem dashStep_eq (hd : List HassDevice) (he : List HassEntity)
    (hs : List (String × HassEntityState)) (eid : String) (A : List Area)
    (dash : DashboardConfig) :
    dashStep hd he hs eid A dash =
      match A.find? (fun a => a.id == dash.areaId) with
      | none => (A, some ("Dashboard area not found: " ++ dash.areaId))
      | some area =>
        match matchedSensorField dash eid with
        | none => (A, none)
        | some F =>
          match getStateEntityDeviceForEntityId eid hd he hs with
          | .error e => (A, some e)
          | .ok (stOpt, _ent, dev) =>
            match stOpt with
            | none => (A, none)
            | some st =>
              (updateFirst (fun a => a.id == dash.areaId)
                (sSet F (some (mkSensorFor F dash area dev eid st))) A, none) := by
  rw [dashStep]
  rcases hfind : A.find? (fun a => a.id == dash.areaId) with _ | area
  · simp only [hfind]
  · simp only [hfind]
    rcases hget : getStateEntityDeviceForEntityId eid hd he hs with e | ⟨stOpt, ent, dev⟩ <;>
      by_cases h1 : (dash.humiditySensorEntityId == some eid) = true <;>
      by_cases h2 : (dash.temperatureSensorEntityId == some eid) = true <;>
      by_cases h3 : (dash.carbonDioxideSensorEntityId == some eid) = true <;>
      first
        | (cases stOpt <;>
            (simp [matchedSensorField, hget, h1, h2, h3, mkSensorFor]
             all_goals (congr 1 <;> (try (funext a; simp [sSet])))))
        | (simp [matchedSensorField, hget, h1, h2, h3, mkSensorFor]
           all_goals (congr 1 <;> (try (funext a; simp [sSet]))))

/-- Writing a sensor slot preserves id, name, floor and lights. -/
theorem areaKeyL_sSet (F : SField) (v : Option Sensor) (a : Area) :
    areaKeyL (sSet F v a) = areaKeyL a := by cases F <;> rfl

/-- Writing a sensor slot preserves the id. -/
theorem sSet_id (F : SField) (v : Option Sensor) (a : Area) : (sSet F v a).id = a.id := by
  cases F <;> rfl

/-- Writing a sensor slot preserves the name. -/
theorem sSet_name (F : SField) (v : Option Sensor) (a : Area) : (sSet F v a).name = a.name := by
  cases F <;> rfl

/-- Reading back a written slot. -/
theorem sGet_sSet_same (F : SField) (v : Option Sensor) (a : Area) :
    sGet F (sSet F v a) = v := by cases F <;> rfl

/-- Reading a different slot than the written one. -/
theorem sGet_sSet_ne (F F' : SField) (v : Option Sensor) (a : Area) (h : F ≠ F') :
    sGet F (sSet F' v a) = sGet F a := by
  cases F <;> cases F' <;> simp_all [sGet, sSet]

/-- Writing a slot's own value back is the identity. -/
theorem sSet_sGet_self (F : SField) (a : Area) : sSet F (sGet F a) a = a := by
  cases F <;> rfl

/-- Writing the value a slot already holds is the identity. -/
theorem sSet_of_sGet_eq (F : SField) (v : Option Sensor) (a : Area) (h : sGet F a = v) :
    sSet F v a = a := by
  rw [← h]
  exact sSet_sGet_self F a

/-- Double write to the same slot. -/
theorem sSet_sSet (F : SField) (v w : Option Sensor) (a : Area) :
    sSet F v (sSet F w a) = sSet F v a := by cases F <;> rfl

/-- The built sensor record reads only the id and the name of the area. -/
theorem mkSensorFor_congr (F : SField) (dash : DashboardConfig) (a b : Area)
    (dev : HassDevice) (eid : String) (st : HassEntityState)
    (hid : a.id = b.id) (hname : a.name = b.name) :
    mkSensorFor F dash a dev eid st = mkSensorFor F dash b dev eid st := by
  cases F <;>
    simp [mkSensorFor, mkHumiditySensor, mkTemperatureSensor, mkCarbonDioxideSensor, hid, hname]

/-- A humidity match pins down the configured humidity entity id. -/
theorem matched_hum (d : DashboardConfig) (e : String)
    (h : matchedSensorField d e = some .hum) : d.humiditySensorEntityId = some e := by
  unfold matchedSensorField at h
  split_ifs at h with c1 c2 c3 <;> simp_all

/-- A temperature match pins down the configured temperature entity id. -/
theorem matched_temp (d : DashboardConfig) (e : String)
    (h : matchedSensorField d e = some .temp) : d.temperatureSensorEntityId = some e := by
  unfold matchedSensorField at h
  split_ifs at h with c1 c2 c3 <;> simp_all

/-- A CO₂ match pins down the configured CO₂ entity id. -/
theorem matched_co2 (d : DashboardConfig) (e : String)
    (h : matchedSensorField d e = some .co2) : d.carbonDioxideSensorEntityId = some e := by
  unfold matchedSensorField at h
  split_ifs at h with c1 c2 c3 <;> simp_all

/-- A dashboard slot is matched by at most one entity id. -/
theorem matchedSensorField_inj (dash : DashboardConfig) (e e' : String) (F : SField)
    (h : matchedSensorField dash e = some F) (h' : matchedSensorField dash e' = some F) :
    e = e' := by
  cases F
  · have he := matched_hum dash e h
    have he' := matched_hum dash e' h'
    rw [he] at he'
    exact (Option.some.injEq _ _ ▸ he')
  · have he := matched_temp dash e h
    have he' := matched_temp dash e' h'
    rw [he] at he'
    exact (Option.some.injEq _ _ ▸ he')
  · have he := matched_co2 dash e h
    have he' := matched_co2 dash e' h'
    rw [he] at he'
    exact (Option.some.injEq _ _ ▸ he')

/-- Evaluate `dashStep` when the entity matches no configured sensor. -/
theorem dashStep_eval_nomatch (hd : List HassDevice) (he : List HassEntity)
    (hs : List (String × HassEntityState)) (eid : String) (A : List Area)
    (dash : DashboardConfig) (area : Area)
    (hfind : A.find? (fun a => a.id == dash.areaId) = some area)
    (hm : matchedSensorField dash eid = none) :
    dashStep hd he hs eid A dash = (A, none) := by
  rw [dashStep_eq]
  simp only [hfind, hm]

/-- Evaluate `dashStep` when the looked-up state is absent. -/
theorem dashStep_eval_nostate (hd : List HassDevice) (he : List HassEntity)
    (hs : List (String × HassEntityState)) (eid : String) (A : List Area)
    (dash : DashboardConfig) (area : Area) (F : SField) (ent : HassEntity) (dev : HassDevice)
    (hfind : A.find? (fun a => a.id == dash.areaId) = some area)
    (hm : matchedSensorField dash eid = some F)
    (hget : getStateEntityDeviceForEntityId eid hd he hs = .ok (none, ent, dev)) :
    dashStep hd he hs eid A dash = (A, none) := by
  rw [dashStep_eq]
  simp only [hfind, hm, hget]

/-- Evaluate `dashStep` in the sensor-write case. -/
theorem dashStep_eval_update (hd : List HassDevice) (he : List HassEntity)
    (hs : List (String × HassEntityState)) (eid : String) (A : List Area)
    (dash : DashboardConfig) (area : Area) (F : SField) (ent : HassEntity)
    (dev : HassDevice) (st : HassEntityState)
    (hfind : A.find? (fun a => a.id == dash.areaId) = some area)
    (hm : matchedSensorField dash eid = some F)
    (hget : getStateEntityDeviceForEntityId eid hd he hs = .ok (some st, ent, dev)) :
    dashStep hd he hs eid A dash
      = (updateFirst (fun a => a.id == dash.areaId)
          (sSet F (some (mkSensorFor F dash area dev eid st))) A, none) := by
  rw [dashStep_eq]
  simp only [hfind, hm, hget]

/-- Exhaustive description of a non-throwing `dashStep`. -/
theorem dashStep_none_cases (hd : List HassDevice) (he : List HassEntity)
    (hs : List (String × HassEntityState)) (eid : String) (A A' : List Area)
    (dash : DashboardConfig)
    (h : dashStep hd he hs eid A dash = (A', none)) :
    ∃ area, A.find? (fun a => a.id == dash.areaId) = some area
      ∧ ((matchedSensorField dash eid = none ∧ A' = A)
        ∨ (∃ F ent dev, matchedSensorField dash eid = some F
            ∧ getStateEntityDeviceForEntityId eid hd he hs = .ok (none, ent, dev) ∧ A' = A)
        ∨ (∃ F ent dev st, matchedSensorField dash eid = some F
            ∧ getStateEntityDeviceForEntityId eid hd he hs = .ok (some st, ent, dev)
            ∧ A' = updateFirst (fun a => a.id == dash.areaId)
                (sSet F (some (mkSensorFor F dash area dev eid st))) A)) := by
  rw [dashStep_eq] at h
  rcases hfind : A.find? (fun a => a.id == dash.areaId) with _ | area <;>
    rw [hfind] at h
  · simp at h
  · refine ⟨area, hfind, ?_⟩
    rcases hm : matchedSensorField dash eid with _ | F <;> rw [hm] at h
    · exact Or.inl ⟨rfl, (Prod.mk.injEq _ _ _ _ ▸ h).1.symm⟩
    · rcases hget : getStateEntityDeviceForEntityId eid hd he hs with e | ⟨stOpt, ent, dev⟩ <;>
        rw [hget] at h
      · simp at h
      · cases stOpt with
        | none =>
          simp only [] at h
          exact Or.inr (Or.inl ⟨F, ent, dev, rfl, rfl, (Prod.mk.injEq _ _ _ _ ▸ h).1.symm⟩)
        | some st =>
          simp only [] at h
          exact Or.inr (Or.inr ⟨F, ent, dev, st, rfl, rfl,
            (Prod.mk.injEq _ _ _ _ ▸ h).1.symm⟩)

/-- S1: once a `dashStep` has run without error, running it again on the
result changes nothing. -/
theorem dashStep_resolve (hd : List HassDevice) (he : List HassEntity)
    (hs : List (String × HassEntityState)) (eid : String) (A A' : List Area)
    (dash : DashboardConfig)
    (h : dashStep hd he hs eid A dash = (A', none)) :
    dashStep hd he hs eid A' dash = (A', none) := by
  rcases dashStep_none_cases hd he hs eid A A' dash h with
    ⟨area, hfind, ⟨hm, rfl⟩ | ⟨F, ent, dev, hm, hget, rfl⟩ | ⟨F, ent, dev, st, hm, hget, rfl⟩⟩
  · exact h
  · exact h
  · have hfind' := find?_updateFirst_self (fun a => a.id == dash.areaId)
      (sSet F (some (mkSensorFor F dash area dev eid st)))
      (fun x => by simp only [sSet_id]) A area hfind
    rw [dashStep_eval_update hd he hs eid _ dash _ F ent dev st hfind' hm hget]
    rw [Prod.mk.injEq]
    refine ⟨?_, rfl⟩
    have hmk : mkSensorFor F dash (sSet F (some (mkSensorFor F dash area dev eid st)) area) dev eid st
        = mkSensorFor F dash area dev eid st :=
      mkSensorFor_congr F dash _ _ dev eid st (sSet_id _ _ _) (sSet_name _ _ _)
    rw [hmk]
    apply updateFirst_eq_self _ _ _ _ hfind'
    exact sSet_sSet F _ _ area

/-- S2: a non-throwing `dashStep` preserves the no-op-ness of any other
collision-free `dashStep`. -/
theorem dashStep_preserve (hd : List HassDevice) (he : List HassEntity)
    (hs : List (String × HassEntityState)) (eid eid' : String) (A A' : List Area)
    (dash dash' : DashboardConfig)
    (hstep : dashStep hd he hs eid' A dash' = (A', none))
    (hok : dash.areaId ≠ dash'.areaId ∨ (dash = dash' ∧ eid ≠ eid'))
    (hid : dashStep hd he hs eid A dash = (A, none)) :
    dashStep hd he hs eid A' dash = (A', none) := by
  rcases dashStep_none_cases hd he hs eid' A A' dash' hstep with
    ⟨area', hfind', ⟨hm', rfl⟩ | ⟨F', ent', dev', hm', hget', rfl⟩
      | ⟨F', ent', dev', st', hm', hget', rfl⟩⟩
  · exact hid
  · exact hid
  · set g : Area → Area := sSet F' (some (mkSensorFor F' dash' area' dev' eid' st')) with hg
    set q : Area → Bool := fun a => a.id == dash'.areaId with hq
    rcases dashStep_none_cases hd he hs eid A A dash hid with
      ⟨x, hfindx, ⟨hm, -⟩ | ⟨F, ent, dev, hm, hget, -⟩ | ⟨F, ent, dev, st, hm, hget, hAeq⟩⟩
    · rcases find?_updateFirst_other (fun a => a.id == dash.areaId) q g
          (fun z => by rw [hg]; simp only [sSet_id]) A x hfindx with hf | ⟨hf, -⟩
      · exact dashStep_eval_nomatch hd he hs eid _ dash x hf hm
      · exact dashStep_eval_nomatch hd he hs eid _ dash (g x) hf hm
    · rcases find?_updateFirst_other (fun a => a.id == dash.areaId) q g
          (fun z => by rw [hg]; simp only [sSet_id]) A x hfindx with hf | ⟨hf, -⟩
      · exact dashStep_eval_nostate hd he hs eid _ dash x F ent dev hf hm hget
      · exact dashStep_eval_nostate hd he hs eid _ dash (g x) F ent dev hf hm hget
    · have hfx : sSet F (some (mkSensorFor F dash x dev eid st)) x = x :=
        updateFirst_eq_self_inv _ _ A x hAeq.symm hfindx
      rcases find?_updateFirst_other (fun a => a.id == dash.areaId) q g
          (fun z => by rw [hg]; simp only [sSet_id]) A x hfindx with hf | ⟨hf, hqx⟩
      · rw [dashStep_eval_update hd he hs eid _ dash x F ent dev st hf hm hget]
        rw [Prod.mk.injEq]
        refine ⟨?_, rfl⟩
        exact updateFirst_eq_self _ _ _ _ hf hfx
      · have hpx : (x.id == dash.areaId) = true := by
          have := List.find?_some hfindx
          simpa using this
        have hxid : x.id = dash.areaId := by simpa using hpx
        have hqid : x.id = dash'.areaId := by
          have : q x = true := hqx
          rw [hq] at this
          simpa using this
        have hsame : dash.areaId = dash'.areaId := by rw [← hxid, ← hqid]
        rcases hok with hok | ⟨hdeq, hene⟩
        · exact absurd hsame hok
        · subst hdeq
          have hFne : F ≠ F' := by
            intro hFeq
            subst hFeq
            exact hene (matchedSensorField_inj dash eid eid' F hm hm')
          rw [dashStep_eval_update hd he hs eid _ dash (g x) F ent dev st hf hm hget]
          rw [Prod.mk.injEq]
          refine ⟨?_, rfl⟩
          have hmk : mkSensorFor F dash (g x) dev eid st = mkSensorFor F dash x dev eid st := by
            rw [hg]
            exact mkSensorFor_congr F dash _ _ dev eid st (sSet_id _ _ _) (sSet_name _ _ _)
          rw [hmk]
          apply updateFirst_eq_self _ _ _ _ hf
          have hgetF : sGet F x = some (mkSensorFor F dash x dev eid st) := by
            have := congrArg (sGet F) hfx
            rw [sGet_sSet_same] at this
            exact this.symm
          have hgetFy : sGet F (g x) = some (mkSensorFor F dash x dev eid st) := by
            rw [hg, sGet_sSet_ne F F' _ _ hFne]
            exact hgetF
          exact sSet_of_sGet_eq F _ (g x) hgetFy

/-- The inner sensor loop is a no-op once every dashboard's step is one. -/
theorem dashFold_id (hd : List HassDevice) (he : List HassEntity)
    (hs : List (String × HassEntityState)) (eid : String) :
    ∀ (cfg : List DashboardConfig) (A : List Area),
      (∀ dash ∈ cfg, dashStep hd he hs eid A dash = (A, none)) →
      dashFold hd he hs eid cfg A = (A, none) := by
  intro cfg
  induction cfg with
  | nil => intro A _; rfl
  | cons dash rest ih =>
    intro A h
    rw [dashFold, h dash (by simp)]
    exact ih A (fun d hd' => h d (by simp [hd']))

/-- Chaining S2 along the inner sensor loop. -/
theorem dashFold_preserve (hd : List HassDevice) (he : List HassEntity)
    (hs : List (String × HassEntityState)) (eid' : String) :
    ∀ (cfg' : List DashboardConfig) (A A' : List Area) (eid : String) (dash : DashboardConfig),
      dashFold hd he hs eid' cfg' A = (A', none) →
      (∀ dash' ∈ cfg', dash.areaId ≠ dash'.areaId ∨ (dash = dash' ∧ eid ≠ eid')) →
      dashStep hd he hs eid A dash = (A, none) →
      dashStep hd he hs eid A' dash = (A', none) := by
  intro cfg'
  induction cfg' with
  | nil =>
    intro A A' eid dash hrun _ hid
    cases hrun
    exact hid
  | cons d rest ih =>
    intro A A' eid dash hrun hok hid
    rw [dashFold] at hrun
    rcases hstep : dashStep hd he hs eid' A d with ⟨A₁, err⟩
    rw [hstep] at hrun
    cases err with
    | some e => simp at hrun
    | none =>
      simp only [] at hrun
      have hid₁ := dashStep_preserve hd he hs eid eid' A A₁ dash d hstep
        (hok d (by simp)) hid
      exact ih A₁ A' eid dash hrun (fun d' hd' => hok d' (by simp [hd'])) hid₁

/-- After a clean inner sensor loop over pairwise-distinct dashboard
areas, every dashboard's step is a no-op on the final state. -/
theorem dashFold_resolved (hd : List HassDevice) (he : List HassEntity)
    (hs : List (String × HassEntityState)) (eid : String) :
    ∀ (cfg : List DashboardConfig) (A A' : List Area),
      cfg.Pairwise (fun d d' => d.areaId ≠ d'.areaId) →
      dashFold hd he hs eid cfg A = (A', none) →
      ∀ dash ∈ cfg, dashStep hd he hs eid A' dash = (A', none) := by
  intro cfg
  induction cfg with
  | nil => intro A A' _ _ dash h; simp at h
  | cons d rest ih =>
    intro A A' hpw hrun dash hmem
    rw [dashFold] at hrun
    rcases hstep : dashStep hd he hs eid A d with ⟨A₁, err⟩
    rw [hstep] at hrun
    cases err with
    | some e => simp at hrun
    | none =>
      simp only [] at hrun
      rw [List.pairwise_cons] at hpw
      rcases List.mem_cons.mp hmem with rfl | hmem'
      · exact dashFold_preserve hd he hs eid rest A₁ A' eid dash hrun
          (fun d' hd' => Or.inl (hpw.1 d' hd'))
          (dashStep_resolve hd he hs eid A A₁ dash hstep)
      · exact ih A₁ A' hpw.2 hrun dash hmem'

/-- The outer sensor loop is a no-op once every (entity, dashboard)
step is one. -/
theorem updateSensorsGo_id (cfg : List DashboardConfig) (hd : List HassDevice)
    (he : List HassEntity) (hs : List (String × HassEntityState)) :
    ∀ (keys : List String) (A : List Area),
      (∀ eid ∈ keys, ∀ dash ∈ cfg, dashStep hd he hs eid A dash = (A, none)) →
      updateSensorsGo cfg hd he hs keys A = (A, none) := by
  intro keys
  induction keys with
  | nil => intro A _; rfl
  | cons eid rest ih =>
    intro A h
    rw [updateSensorsGo, dashFold_id hd he hs eid cfg A (h eid (by simp))]
    exact ih A (fun e he' => h e (by simp [he']))

/-- Chaining S2 along the outer sensor loop. -/
theorem updateSensorsGo_preserve (cfg : List DashboardConfig) (hd : List HassDevice)
    (he : List HassEntity) (hs : List (String × HassEntityState))
    (hinj : ∀ d ∈ cfg, ∀ d' ∈ cfg, d.areaId = d'.areaId → d = d') :
    ∀ (keys : List String) (A A' : List Area) (eid : String) (dash : DashboardConfig),
      dash ∈ cfg →
      updateSensorsGo cfg hd he hs keys A = (A', none) → eid ∉ keys →
      dashStep hd he hs eid A dash = (A, none) →
      dashStep hd he hs eid A' dash = (A', none) := by
  intro keys
  induction keys with
  | nil =>
    intro A A' eid dash _ hrun _ hid
    cases hrun
    exact hid
  | cons k rest ih =>
    intro A A' eid dash hdm hrun hnot hid
    rw [updateSensorsGo] at hrun
    rcases hstep : dashFold hd he hs k cfg A with ⟨A₁, err⟩
    rw [hstep] at hrun
    cases err with
    | some e => simp at hrun
    | none =>
      simp only [] at hrun
      have hne : eid ≠ k := fun h => hnot (h ▸ List.mem_cons_self k rest)
      have hok : ∀ d' ∈ cfg, dash.areaId ≠ d'.areaId ∨ (dash = d' ∧ eid ≠ k) := by
        intro d' hd'
        by_cases hdd : dash = d'
        · exact Or.inr ⟨hdd, hne⟩
        · refine Or.inl (fun heq => hdd (hinj dash hdm d' hd' heq))
      have hid₁ := dashFold_preserve hd he hs k cfg A A₁ eid dash hstep hok hid
      exact ih A₁ A' eid dash hdm hrun (fun h => hnot (List.mem_cons_of_mem k h)) hid₁

/-- After a clean `updateSensors` run with nodup keys and
pairwise-distinct dashboard areas, every (entity, dashboard) step is a
no-op on the final state. -/
theorem updateSensorsGo_resolved (cfg : List DashboardConfig) (hd : List HassDevice)
    (he : List HassEntity) (hs : List (String × HassEntityState))
    (hpw : cfg.Pairwise (fun d d' => d.areaId ≠ d'.areaId))
    (hinj : ∀ d ∈ cfg, ∀ d' ∈ cfg, d.areaId = d'.areaId → d = d') :
    ∀ (keys : List String) (A A' : List Area),
      keys.Nodup → updateSensorsGo cfg hd he hs keys A = (A', none) →
      ∀ eid ∈ keys, ∀ dash ∈ cfg, dashStep hd he hs eid A' dash = (A', none) := by
  intro keys
  induction keys with
  | nil => intro A A' _ _ eid h; simp at h
  | cons k rest ih =>
    intro A A' hnd hrun eid hmem dash hdm
    rw [updateSensorsGo] at hrun
    rcases hstep : dashFold hd he hs k cfg A with ⟨A₁, err⟩
    rw [hstep] at hrun
    cases err with
    | some e => simp at hrun
    | none =>
      simp only [] at hrun
      rw [List.nodup_cons] at hnd
      rcases List.mem_cons.mp hmem with rfl | hmem'
      · exact updateSensorsGo_preserve cfg hd he hs hinj rest A₁ A' eid dash hdm hrun hnd.1
          (dashFold_resolved hd he hs eid cfg A A₁ hpw hstep dash hdm)
      · exact ih A₁ A' hnd.2 hrun eid hmem' dash hdm

/-- Rewriting an area's registry fields with their own values is the
identity. -/
theorem area_set_key_self (a : Area) (x y : String) (z : Option String)
    (h1 : x = a.id) (h2 : y = a.name) (h3 : z = a.floorId) :
    ({ a with id := x, name := y, floorId := z } : Area) = a := by
  subst h1
  subst h2
  subst h3
  rfl

/-- The skeletons produced by `updateAreas` come from the registry
snapshot. -/
theorem updateAreas_map_areaKey (stale : List Area) (has : List HassArea) :
    (updateAreas stale has).map areaKey
      = has.map (fun h => (h.area_id, h.name, h.floor_id)) := by
  rw [updateAreas, List.map_map]
  apply List.map_congr_left
  intro ha _
  cases hf : stale.find? (fun a => a.id == ha.area_id) <;>
    simp [mergeArea, areaKey, Function.comp, hf]

/-- `updateAreas` fixes any model that already carries the snapshot's
skeletons (for nodup area ids). -/
theorem updateAreas_fix (m : List Area) (has : List HassArea)
    (hnd : (has.map HassArea.area_id).Nodup)
    (hkey : m.map areaKey = has.map (fun h => (h.area_id, h.name, h.floor_id))) :
    updateAreas m has = m := by
  have hlen : has.length = m.length := by
    have := congrArg List.length hkey
    simpa using this.symm
  have hmnd : (m.map Area.id).Nodup := by
    have hcomp : m.map Area.id = has.map HassArea.area_id := by
      have hfst := congrArg (List.map Prod.fst) hkey
      simpa [List.map_map, Function.comp, areaKey] using hfst
    rw [hcomp]
    exact hnd
  apply List.ext_get
  · simpa [updateAreas] using hlen
  intro i h1 h2
  have hih : i < has.length := by simpa [updateAreas] using h1
  have hkey_i : areaKey (m.get ⟨i, h2⟩)
      = ((has.get ⟨i, hih⟩).area_id, (has.get ⟨i, hih⟩).name, (has.get ⟨i, hih⟩).floor_id) := by
    have hg := List.get_of_eq hkey ⟨i, by simpa using h2⟩
    rw [List.get_map] at hg
    rw [hg, List.get_map]
  have hid : (m.get ⟨i, h2⟩).id = (has.get ⟨i, hih⟩).area_id :=
    congrArg (fun k => k.1) hkey_i
  have hname : (m.get ⟨i, h2⟩).name = (has.get ⟨i, hih⟩).name :=
    congrArg (fun k => k.2.1) hkey_i
  have hfloor : (m.get ⟨i, h2⟩).floorId = (has.get ⟨i, hih⟩).floor_id :=
    congrArg (fun k => k.2.2) hkey_i
  have hgetu : (updateAreas m has).get ⟨i, h1⟩ = mergeArea m (has.get ⟨i, hih⟩) := by
    simp [updateAreas, List.get_map]
  rw [hgetu, mergeArea]
  have hfind : m.find? (fun a => a.id == (has.get ⟨i, hih⟩).area_id)
      = some (m.get ⟨i, h2⟩) := by
    have hsf := find?_self_of_nodup_ids m hmnd i h2
    rw [hid] at hsf
    exact hsf
  rw [hfind]
  exact area_set_key_self _ _ _ _ hid.symm hname.symm hfloor.symm

/-- C6: rerunning the rebuild with identical registry snapshots (nodup
area ids, state keys and dashboard areas) reproduces the model
field-for-field, and the `updateAreas` merge carries every non-registry
field (lights, sensors) over from the stale area unchanged. -/
theorem rebuild_idempotent (cfg : List DashboardConfig) (m0 : List Area)
    (ha : List HassArea) (hd : List HassDevice) (he : List HassEntity)
    (hs : List (String × HassEntityState)) (m1 : List Area)
    (hcfg : (cfg.map DashboardConfig.areaId).Nodup)
    (hha : (ha.map HassArea.area_id).Nodup)
    (hkeys : (hs.map Prod.fst).Nodup)
    (h1 : rebuildRun cfg m0 ha hd he hs = (m1, none)) :
    rebuildRun cfg m1 ha hd he hs = (m1, none)
    ∧ (∀ (stale : List Area) (x : HassArea) (sa : Area),
        stale.find? (fun a => a.id == x.area_id) = some sa →
        (mergeArea stale x).lights = sa.lights
        ∧ (mergeArea stale x).humiditySensor = sa.humiditySensor
        ∧ (mergeArea stale x).temperatureSensor = sa.temperatureSensor
        ∧ (mergeArea stale x).carbonDioxideSensor = sa.carbonDioxideSensor) := by
  refine ⟨?_, ?_⟩
  swap
  · intro stale x sa hf
    rw [mergeArea, hf]
    exact ⟨rfl, rfl, rfl, rfl⟩
  rw [rebuildRun] at h1
  rcases hL : updateLights hd he hs (updateAreas m0 ha) with ⟨A2, errL⟩
  rw [hL] at h1
  cases errL with
  | some e => simp at h1
  | none =>
    simp only [] at h1
    have hkeyA2 : A2.map areaKey = (updateAreas m0 ha).map areaKey := by
      have hmap := updateLightsGo_map_areaKey hd he hs (hs.map Prod.fst) (updateAreas m0 ha)
      rw [show updateLightsGo hd he hs (hs.map Prod.fst) (updateAreas m0 ha)
          = updateLights hd he hs (updateAreas m0 ha) from rfl, hL] at hmap
      exact hmap
    have hkeyL : m1.map areaKeyL = A2.map areaKeyL := by
      have hmap := updateSensorsGo_map_areaKeyL cfg hd he hs (hs.map Prod.fst) A2
      rw [show updateSensorsGo cfg hd he hs (hs.map Prod.fst) A2
          = updateSensors cfg hd he hs A2 from rfl, h1] at hmap
      exact hmap
    have hkeym1 : m1.map areaKey = ha.map (fun h => (h.area_id, h.name, h.floor_id)) :=
      (map_areaKey_of_map_areaKeyL hkeyL).trans
        (hkeyA2.trans (updateAreas_map_areaKey m0 ha))
    have hfix : updateAreas m1 ha = m1 := updateAreas_fix m1 ha hha hkeym1
    have hresA2 : ∀ eid ∈ hs.map Prod.fst, lightStep hd he hs A2 eid = (A2, none) :=
      updateLightsGo_resolved hd he hs (hs.map Prod.fst) (updateAreas m0 ha) A2 hkeys hL
    have hresm1 : ∀ eid ∈ hs.map Prod.fst, lightStep hd he hs m1 eid = (m1, none) :=
      fun eid hm => lightStep_transfer hd he hs A2 m1 eid hkeyL.symm (hresA2 eid hm)
    have hLights : updateLights hd he hs m1 = (m1, none) :=
      updateLightsGo_id hd he hs (hs.map Prod.fst) m1 hresm1
    have hpw : cfg.Pairwise (fun d d' => d.areaId ≠ d'.areaId) :=
      List.pairwise_map.mp hcfg
    have hinj : ∀ d ∈ cfg, ∀ d' ∈ cfg, d.areaId = d'.areaId → d = d' := by
      intro d hdm d' hdm' heq
      exact List.inj_on_of_nodup_map hcfg hdm hdm' heq
    have hsres : ∀ eid ∈ hs.map Prod.fst, ∀ dash ∈ cfg,
        dashStep hd he hs eid m1 dash = (m1, none) :=
      updateSensorsGo_resolved cfg hd he hs hpw hinj (hs.map Prod.fst) A2 m1 hkeys h1
    have hSens : updateSensors cfg hd he hs m1 = (m1, none) :=
      updateSensorsGo_id cfg hd he hs (hs.map Prod.fst) m1 hsres
    rw [rebuildRun, hfix, hLights]
    exact hSens

/-- C6 witness: rebuilding twice from the office scenario is a fixpoint. -/
theorem rebuild_idempotent_witness :
    rebuildRun dashboardConfigs
      (rebuildRun dashboardConfigs [] cfgAreas [deskDevice] [deskEntity]
        [("light.desk", stOff)]).1
      cfgAreas [deskDevice] [deskEntity] [("light.desk", stOff)]
      = ((rebuildRun dashboardConfigs [] cfgAreas [deskDevice] [deskEntity]
          [("light.desk", stOff)]).1, none) :=
  (rebuild_idempotent dashboardConfigs [] cfgAreas [deskDevice] [deskEntity]
    [("light.desk", stOff)]
    (rebuildRun dashboardConfigs [] cfgAreas [deskDevice] [deskEntity]
      [("light.desk", stOff)]).1
    (by decide) (by decide) (by decide) (by decide)).1
